import Mathlib

/-!
Verification of the Attendance Session & Persistence Engine of `src/TTS.py`.

The engine is shallowly embedded: Excel files become an association list from
path strings to typed table contents, pandas read/write become lookups and
updates on that list, and the PyQt `AttendanceSystem` object's mutable fields
become an explicit `AppState` record threaded through each operation.  A write
to a path listed in `locked` fails, modelling a file held open by another
program (`PermissionError`); every Python exception that the source raises or
catches becomes an `Except.error` with a constructor recording which concrete
failure occurred.  Wall-clock timestamps are passed in as explicit string
arguments.
-/

deriving instance DecidableEq for Except

namespace TTS

/-- The three attendance statuses, written 出勤 / 旷课 / 请假 in the source;
the UI buttons are the only callers of `record_status` and pass exactly
these three column names. -/
inductive Status where
  | present
  | absent
  | leave
deriving DecidableEq, Repr

/-- A roster row: 学号 (student id) and 姓名 (student name). -/
structure Student where
  sid : String
  sname : String
deriving DecidableEq, Repr

/-- An attendance-log row: 学号, 姓名, 状态, 日期, 时间. -/
structure AttendanceRecord where
  sid : String
  sname : String
  status : Status
  dateStr : String
  timeStr : String
deriving DecidableEq, Repr

/-- A statistics row: 学号, 姓名, 出勤, 旷课, 请假. -/
structure StatRow where
  sid : String
  sname : String
  presentCount : Nat
  absentCount : Nat
  leaveCount : Nat
deriving DecidableEq, Repr

/-- A class-index row of `data/classes.xlsx`:
班级名称, 学生名单文件, 考勤文件, 统计文件. -/
structure ClassRow where
  cname : String
  studentsFile : String
  attendanceFile : String
  statsFile : String
deriving DecidableEq, Repr

/-- Contents of one persisted Excel file, typed by which table it stores.
An empty row list models a headers-only file. -/
inductive FileData where
  | roster (rows : List Student)
  | attendance (rows : List AttendanceRecord)
  | stats (rows : List StatRow)
  | classIndex (rows : List ClassRow)
deriving DecidableEq, Repr

/-- The persisted store: path → contents, plus the set of paths that are
currently unwritable (file locked by another program). -/
structure FS where
  files : List (String × FileData)
  locked : List String
deriving DecidableEq, Repr

/-- The `self.current_files` dict of `AttendanceSystem` once populated by
`select_class`: the three per-class table paths. -/
structure ClassFiles where
  studentsFile : String
  attendanceFile : String
  statsFile : String
deriving DecidableEq, Repr

/-- The mutable fields of the `AttendanceSystem` object that the engine
operations read and write. -/
structure AppState where
  fs : FS
  current_class : Option String
  current_files : Option ClassFiles
  students : List Student
  current_index : Nat
deriving DecidableEq, Repr

/-- Every failure the embedded operations can report.  Each constructor
corresponds to one concrete Python exception site: `dupClass` to the
`ValueError` of `save_class`, `createFail` to its `RuntimeError`,
`schemaErr`/`emptyImport` to the two `ValueError`s of `import_students`,
`indexError` to the `IndexError` of indexing past the roster,
`readFail`/`writeFail` to `pd.read_excel`/`to_excel` raising on a missing
or locked file, `noClassSelected`/`noValidClass` to the guard messages. -/
inductive Err where
  | dupClass
  | createFail
  | noClassSelected
  | noValidClass
  | indexError
  | emptyImport
  | schemaErr (missing : List String)
  | readFail (p : String)
  | writeFail (p : String)
deriving DecidableEq, Repr

/-- What a successful `record_status` reports: either the session moved on to
the next student (auto-announce branch) or the 本班考勤已完成 completion
message was shown. -/
inductive RecOutcome where
  | advanced
  | completed
deriving DecidableEq, Repr

/-- `readFail`/`writeFail` model storage failures (missing/locked file); the
spec's `RecordWriteError` bucket. -/
def Err.isStorage : Err → Bool
  | .readFail _ => true
  | .writeFail _ => true
  | _ => false

/-! ### Filesystem primitives -/

/-- Set the value at a key in an association list, appending if absent.
Lookups read the first match, so replacing the first occurrence models a
whole-file overwrite. -/
def assocSet : List (String × FileData) → String → FileData → List (String × FileData)
  | [], k, v => [(k, v)]
  | p :: t, k, v => if p.1 == k then (k, v) :: t else p :: assocSet t k v

/-- `pd.read_excel(p)`: the contents at `p`, if the file exists. -/
def FS.read (fs : FS) (p : String) : Option FileData :=
  (fs.files.find? (fun q => q.1 == p)).map (fun q => q.2)

/-- `os.path.exists(p)`. -/
def FS.pathExists (fs : FS) (p : String) : Bool :=
  fs.files.any (fun q => q.1 == p)

/-- `df.to_excel(p)`: whole-file overwrite; fails (`PermissionError`) when
the path is locked by another program. -/
def FS.write (fs : FS) (p : String) (d : FileData) : Option FS :=
  if p ∈ fs.locked then none
  else some { fs with files := assocSet fs.files p d }

/-- `os.rename src dst`: moves the contents, contents unchanged; fails when
either path is locked.  Callers guard on `pathExists src`. -/
def FS.rename (fs : FS) (src dst : String) : Option FS :=
  match fs.read src with
  | none => some fs
  | some d =>
      if src ∈ fs.locked ∨ dst ∈ fs.locked then none
      else some { fs with files := assocSet (fs.files.filter (fun q => q.1 != src)) dst d }

/-! ### Path construction, mirroring the f-strings of the source -/

def classesPath : String := "data/classes.xlsx"

def stuPath (base : String) : String := "data/" ++ base ++ "_students.xlsx"

def attPath (base : String) : String := "data/" ++ base ++ "_attendance.xlsx"

def staPath (base : String) : String := "data/" ++ base ++ "_stats.xlsx"

/-- The whitespace characters `str.strip()` removes (the ones occurring in
practice). -/
def isSpaceChar (c : Char) : Bool :=
  c = ' ' ∨ c = '\t' ∨ c = '\n' ∨ c = '\r'

/-- Python `str.strip()`: drop whitespace from both ends. -/
def strTrim (s : String) : String :=
  String.mk ((((s.data.dropWhile isSpaceChar).reverse).dropWhile isSpaceChar).reverse)

/-- Python `.replace(" ", "_")`: the pattern is a single character, so this
is a character-wise map. -/
def underscoreSpaces (s : String) : String :=
  String.mk (s.data.map (fun c => if c = ' ' then '_' else c))

/-- The characters removed by `re.sub(r'[\\/*?:"<>|]', '', ...)`. -/
def illegalChars : List Char := ['\\', '/', '*', '?', ':', '"', '<', '>', '|']

/-- Drop every filesystem-illegal character from a string. -/
def stripIllegal (s : String) : String :=
  String.mk (s.data.filter (fun c => c ∉ illegalChars))

/-- `DataManager.save_class` name cleaning: strip whitespace, drop illegal
characters, then turn spaces into underscores. -/
def sanitizeBase (s : String) : String :=
  underscoreSpaces (stripIllegal (strTrim s))

/-- `import_students` name cleaning: strip whitespace and turn spaces into
underscores — note it does NOT drop the illegal characters. -/
def importBase (s : String) : String :=
  underscoreSpaces (strTrim s)

/-- `os.path.basename`: the part after the final slash. -/
def basename (p : String) : String :=
  String.mk ((p.data.reverse.takeWhile (fun c => c ≠ '/')).reverse)

/-! ### DataManager.save_class -/

/-- One turn of the file-creation loop of `save_class`: create a
headers-only table at `p` unless the file already exists. -/
def ensureFile (fs : FS) (p : String) (d : FileData) : Option FS :=
  if fs.pathExists p then some fs else fs.write p d

/-- `DataManager.save_class(class_name)`: sanitize the name, create the three
headers-only tables for any of the three paths that do not yet exist, then
re-read the class index, refuse a duplicate raw name (`ValueError`
班级名称已存在), and append one index row.  Note the duplicate check uses the
raw `class_name` against the raw stored names, and runs only after the
file-creation loop. -/
def save_class (fs : FS) (class_name : String) : FS × Except Err ClassFiles :=
  let base := sanitizeBase class_name
  match ensureFile fs (stuPath base) (.roster []) with
  | none => (fs, .error .createFail)
  | some fs1 =>
    match ensureFile fs1 (attPath base) (.attendance []) with
    | none => (fs1, .error .createFail)
    | some fs2 =>
      match ensureFile fs2 (staPath base) (.stats []) with
      | none => (fs2, .error .createFail)
      | some fs3 =>
        match fs3.read classesPath with
        | some (.classIndex rows) =>
            if class_name ∈ rows.map (fun r => r.cname) then
              (fs3, .error .dupClass)
            else
              match fs3.write classesPath
                  (.classIndex (rows ++
                    [⟨class_name, stuPath base, attPath base, staPath base⟩])) with
              | some fs4 => (fs4, .ok ⟨stuPath base, attPath base, staPath base⟩)
              | none => (fs3, .error (.writeFail classesPath))
        | _ => (fs3, .error (.readFail classesPath))

/-- `DataManager.load_classes()`: the index rows if the index file exists
(names already strings in this model), else the empty list. -/
def load_classes (fs : FS) : List ClassRow :=
  match fs.read classesPath with
  | some (.classIndex rows) => rows
  | _ => []

/-! ### AttendanceSystem.delete_class -/

/-- The dated backup directory `data/deleted_classes/<YYYYMMDD>`. -/
def backupDirOf (dateStr : String) : String := "data/deleted_classes/" ++ dateStr

/-- The timestamp-prefixed destination of one archived file. -/
def backupDst (dateStr timeStr src : String) : String :=
  backupDirOf dateStr ++ "/" ++ timeStr ++ "_" ++ basename src

/-- Backup step of `delete_class` for one source path: if the path is
non-empty and the file exists, rename it into the dated backup directory
with a timestamp-prefixed name; otherwise skip it. -/
def backupOne (fs : FS) (dateStr timeStr src : String) : Option FS :=
  if src != "" ∧ fs.pathExists src then
    fs.rename src (backupDst dateStr timeStr src)
  else some fs

/-- `AttendanceSystem.delete_class` (confirmation dialog answered Yes).
`rowSelected` models `self.class_list.currentRow() >= 0`.  Archives the
three files of `current_files` one by one into
`data/deleted_classes/<date>` — renames already performed persist when a
later one fails, since the raised `PermissionError` is only caught and
reported.  Then rewrites the index: the 班级名称 column is overwritten
with its whitespace-trimmed values (`astype(str).str.strip()`) before the
rows equal to the trimmed current name are dropped, so the persisted index
holds trimmed names.  Only when a list row was selected are
`current_class`, `current_files` and `students` cleared; the
`current_index` cursor is never reset. -/
def delete_class (s : AppState) (dateStr timeStr : String) (rowSelected : Bool) :
    AppState × Except Err Unit :=
  match s.current_class with
  | none => (s, .error .noClassSelected)
  | some cname =>
    if cname = "" then (s, .error .noClassSelected) else
    let srcs : ClassFiles :=
      match s.current_files with
      | some cf => cf
      | none => ⟨"", "", ""⟩
    match backupOne s.fs dateStr timeStr srcs.studentsFile with
    | none => (s, .error (.writeFail (backupDirOf dateStr)))
    | some fsA =>
      match backupOne fsA dateStr timeStr srcs.attendanceFile with
      | none => ({ s with fs := fsA }, .error (.writeFail (backupDirOf dateStr)))
      | some fsB =>
        match backupOne fsB dateStr timeStr srcs.statsFile with
        | none => ({ s with fs := fsB }, .error (.writeFail (backupDirOf dateStr)))
        | some fs1 =>
          let afterIdx : FS × Except Err Unit :=
            if fs1.pathExists classesPath then
              match fs1.read classesPath with
              | some (.classIndex rows) =>
                  let rows0 := rows.map (fun r => { r with cname := strTrim r.cname })
                  let rows1 := rows0.filter (fun r => r.cname != strTrim cname)
                  match fs1.write classesPath (.classIndex rows1) with
                  | some fs2 => (fs2, .ok ())
                  | none => (fs1, .error (.writeFail classesPath))
              | _ => (fs1, .error (.readFail classesPath))
            else (fs1, .ok ())
          match afterIdx with
          | (fs2, .error e) => ({ s with fs := fs2 }, .error e)
          | (fs2, .ok ()) =>
              let s1 := { s with fs := fs2 }
              let s2 :=
                if rowSelected then
                  { s1 with current_class := none, current_files := none, students := [] }
                else s1
              (s2, .ok ())

/-! ### AttendanceSystem.start_attendance and replay_name -/

/-- `AttendanceSystem.start_attendance`: load the roster file into
`self.students`, reset the cursor to 0, then display (which indexes
`students[0]` and raises `IndexError` — caught — on an empty roster; the
already-assigned empty snapshot and zero cursor persist). -/
def start_attendance (s : AppState) : AppState × Except Err Unit :=
  match s.current_class with
  | none => (s, .error .noClassSelected)
  | some cname =>
    if cname = "" then (s, .error .noClassSelected) else
    match s.current_files with
    | none => (s, .error (.readFail ""))
    | some cf =>
      match s.fs.read cf.studentsFile with
      | some (.roster rows) =>
          let s1 := { s with students := rows, current_index := 0 }
          if rows.isEmpty then (s1, .error .indexError) else (s1, .ok ())
      | _ => (s, .error (.readFail cf.studentsFile))

/-- `AttendanceSystem.replay_name`: re-announces the current student on a
separate voice thread; guarded by a bounds check and touches no engine
state. -/
def replay_name (s : AppState) : AppState := s

/-! ### AttendanceSystem.record_status -/

/-- The pandas update `stats_df.loc[stats_df[学号] == sid, status] += 1`:
every row whose 学号 matches gets the column for `status` incremented; when
no row matches this is a silent no-op. -/
def StatRow.inc (r : StatRow) (st : Status) : StatRow :=
  match st with
  | .present => { r with presentCount := r.presentCount + 1 }
  | .absent => { r with absentCount := r.absentCount + 1 }
  | .leave => { r with leaveCount := r.leaveCount + 1 }

/-- Apply the masked increment to a whole statistics table. -/
def incStats (rows : List StatRow) (sid : String) (st : Status) : List StatRow :=
  rows.map (fun r => if r.sid == sid then r.inc st else r)

/-- `AttendanceSystem.record_status(status)`: guard on `current_files`,
index the roster snapshot at the cursor (`IndexError` past the end), build
the record with the current timestamp, read–append–rewrite the attendance
file, read–increment–rewrite the statistics file, then advance the cursor
and either re-announce (`advanced`) or report completion (`completed`).
Any exception aborts at its site — earlier file writes persist, later ones
and the cursor advance do not happen. -/
def record_status (s : AppState) (st : Status) (dateStr timeStr : String) :
    AppState × Except Err RecOutcome :=
  match s.current_files with
  | none => (s, .error .noValidClass)
  | some cf =>
    match s.students[s.current_index]? with
    | none => (s, .error .indexError)
    | some student =>
      let rec1 : AttendanceRecord := ⟨student.sid, student.sname, st, dateStr, timeStr⟩
      match s.fs.read cf.attendanceFile with
      | some (.attendance l) =>
        match s.fs.write cf.attendanceFile (.attendance (l ++ [rec1])) with
        | none => (s, .error (.writeFail cf.attendanceFile))
        | some fs1 =>
          match fs1.read cf.statsFile with
          | some (.stats rows) =>
            match fs1.write cf.statsFile (.stats (incStats rows student.sid st)) with
            | none => ({ s with fs := fs1 }, .error (.writeFail cf.statsFile))
            | some fs2 =>
              let s1 := { s with fs := fs2, current_index := s.current_index + 1 }
              if s1.current_index < s1.students.length then (s1, .ok .advanced)
              else (s1, .ok .completed)
          | _ => ({ s with fs := fs1 }, .error (.readFail cf.statsFile))
      | _ => (s, .error (.readFail cf.attendanceFile))

/-! ### AttendanceSystem.import_students -/

/-- The parsed tabular import source (spreadsheet or CSV): column names and
cell rows aligned with them; `none` is a missing (NaN) cell. -/
structure ImportFile where
  cols : List String
  cells : List (List (Option String))
deriving DecidableEq, Repr

def requiredCols : List String := ["学号", "姓名"]

/-- `drop_duplicates()`: keep the first occurrence of each exact row. -/
def dedupFirst (l : List (String × String)) : List (String × String) :=
  l.foldl (fun acc x => if x ∈ acc then acc else acc ++ [x]) []

/-- `df[[学号, 姓名]].dropna().drop_duplicates()`: select the two required
columns, drop rows with a missing value in either, drop exact duplicates. -/
def importClean (f : ImportFile) : List (String × String) :=
  let idI := f.cols.indexOf "学号"
  let nmI := f.cols.indexOf "姓名"
  let sel := f.cells.map (fun r => ((r[idI]?).join, (r[nmI]?).join))
  let dropped := sel.filterMap (fun p =>
    match p with
    | (some a, some b) => some (a, b)
    | _ => none)
  dedupFirst dropped

/-- The cleaned import rows as roster rows. -/
def cleanStudents (f : ImportFile) : List Student :=
  (importClean f).map (fun p => ⟨p.1, p.2⟩)

/-- The block after the try/except of `import_students` (lines 424–445 of
the source): rebuild `files` from `base_name`, read the students file back,
and overwrite the stats file at `data/<base>_stats.xlsx` with one
zero-initialized row per roster row.  It runs whenever `base_name` was
bound, even if the try block failed after binding it; its own failures
(missing roster file, locked stats file) are uncaught.  `r` is the result
of the try block. -/
def importTail (s : AppState) (base : String) (r : Except Err Unit) :
    AppState × Except Err Unit :=
  match s.fs.read (stuPath base) with
  | some (.roster rows) =>
      let stats := rows.map (fun st => (⟨st.sid, st.sname, 0, 0, 0⟩ : StatRow))
      match s.fs.write (staPath base) (.stats stats) with
      | some fs1 => ({ s with fs := fs1 }, r)
      | none => (s, if r.isOk then .error (.writeFail (staPath base)) else r)
  | _ => (s, if r.isOk then .error (.readFail (stuPath base)) else r)

/-- `AttendanceSystem.import_students` with the file dialog and format
dispatch abstracted into an already-parsed `ImportFile`.  Validates the two
required columns (`ValueError` listing the missing ones), cleans the rows,
refuses an empty result, writes the cleaned roster to
`data/<base>_students.xlsx` (replace, not merge), repoints the index's
学生名单文件 column for raw-equal class names, and then runs `importTail`.
When the try block fails before `base_name` is bound (schema error, empty
import, no class selected) the tail block stops at an unbound-name
`NameError` without touching any file, so the state is returned unchanged
with the try block's error. -/
def import_students (s : AppState) (f : ImportFile) : AppState × Except Err Unit :=
  let missing := requiredCols.filter (fun c => c ∉ f.cols)
  if missing ≠ [] then (s, .error (.schemaErr missing))
  else
    let cleaned := importClean f
    if cleaned.isEmpty then (s, .error .emptyImport)
    else
      match s.current_class with
      | none => (s, .error .noClassSelected)
      | some cname =>
        if cname = "" then (s, .error .noClassSelected) else
        let base := importBase cname
        let target := stuPath base
        let roster : List Student := cleaned.map (fun p => ⟨p.1, p.2⟩)
        match s.fs.write target (.roster roster) with
        | none => importTail s base (.error (.writeFail target))
        | some fs1 =>
          match fs1.read classesPath with
          | some (.classIndex rows) =>
              let rows1 := rows.map (fun r =>
                if r.cname == cname then { r with studentsFile := target } else r)
              match fs1.write classesPath (.classIndex rows1) with
              | some fs2 => importTail { s with fs := fs2 } base (.ok ())
              | none => importTail { s with fs := fs1 } base (.error (.writeFail classesPath))
          | _ => importTail { s with fs := fs1 } base (.error (.readFail classesPath))

/-! ### Session iteration and well-formedness -/

/-- The storage conditions under which a roll-call decision can be durably
recorded: a selected class whose attendance and statistics files exist with
the right shape at distinct, unlocked paths. -/
def GoodSession (s : AppState) (cf : ClassFiles) : Prop :=
  s.current_files = some cf ∧
  cf.attendanceFile ≠ cf.statsFile ∧
  (∃ l, s.fs.read cf.attendanceFile = some (.attendance l)) ∧
  (∃ rs, s.fs.read cf.statsFile = some (.stats rs)) ∧
  cf.attendanceFile ∉ s.fs.locked ∧
  cf.statsFile ∉ s.fs.locked

/-- Run `record_status` `n` times in sequence, requiring every call to
succeed; `none` if any call fails. -/
def runRecords (s : AppState) (st : Status) (dateStr timeStr : String) : Nat → Option AppState
  | 0 => some s
  | n + 1 =>
    match record_status s st dateStr timeStr with
    | (s1, .ok _) => runRecords s1 st dateStr timeStr n
    | _ => none

/-! ### Concrete states used by the concrete-input theorems -/

/-- The three table paths of a class whose sanitized base is `ab`. -/
def exCF : ClassFiles := ⟨stuPath "ab", attPath "ab", staPath "ab"⟩

def exRoster : List Student := [⟨"1", "A"⟩, ⟨"2", "B"⟩]

def exStats0 : List StatRow := [⟨"1", "A", 0, 0, 0⟩, ⟨"2", "B", 0, 0, 0⟩]

/-- A store as `save_class` then a two-student import leaves it for class
`ab`: index row plus the three tables. -/
def exFS : FS :=
  ⟨[(classesPath, .classIndex [⟨"ab", stuPath "ab", attPath "ab", staPath "ab"⟩]),
    (stuPath "ab", .roster exRoster),
    (attPath "ab", .attendance []),
    (staPath "ab", .stats exStats0)], []⟩

/-- Mid-session state for class `ab`: roster snapshot loaded, cursor 0. -/
def exS : AppState := ⟨exFS, some "ab", some exCF, exRoster, 0⟩

/-- Same state but with the statistics file locked by another program. -/
def exSLocked : AppState := { exS with fs := { exFS with locked := [staPath "ab"] } }

/-- Session state whose statistics table has no row for the current student
(id `1`): stats never regenerated after a roster edit. -/
def exSNoStat : AppState :=
  ⟨⟨[(attPath "ab", .attendance []), (staPath "ab", .stats [⟨"2", "B", 0, 0, 0⟩])], []⟩,
    some "ab", some exCF, [⟨"1", "A"⟩], 0⟩

/-- A store holding one class created under the raw name `a b` (sanitized
base `a_b`). -/
def exFS5 : FS :=
  ⟨[(classesPath, .classIndex [⟨"a b", stuPath "a_b", attPath "a_b", staPath "a_b"⟩]),
    (stuPath "a_b", .roster []),
    (attPath "a_b", .attendance []),
    (staPath "a_b", .stats [])], []⟩

/-- State for a class created under the raw name `a?b`: `save_class`
sanitized the base to `ab`, so the index points at the `ab` files; the stats
table carries prior counts. -/
def exS6 : AppState :=
  ⟨⟨[(classesPath, .classIndex [⟨"a?b", stuPath "ab", attPath "ab", staPath "ab"⟩]),
     (stuPath "ab", .roster []),
     (attPath "ab", .attendance []),
     (staPath "ab", .stats [⟨"9", "Z", 5, 0, 0⟩])], []⟩,
    some "a?b", some exCF, [], 0⟩

/-- A minimal import source with one valid row. -/
def exF6 : ImportFile := ⟨["学号", "姓名"], [[some "1", some "A"]]⟩

/-- An import source with an ignored extra column, an exact duplicate row
and a row with a blank id: two valid unique entries survive cleaning. -/
def exF6w : ImportFile :=
  ⟨["学号", "姓名", "备注"],
   [[some "1", some "A", some "x"],
    [some "1", some "A", none],
    [none, some "B", some "y"],
    [some "2", some "B", none]]⟩

/-- State where the UI still names class `X` but the index has no matching
row (only `Y`). -/
def exS7 : AppState :=
  ⟨⟨[(classesPath, .classIndex [⟨"Y", "p1", "p2", "p3"⟩])], []⟩, some "X", none, [], 0⟩

/-- A completed one-student session for class `c` about to be deleted. -/
def exS4 : AppState :=
  ⟨⟨[(classesPath, .classIndex [⟨"c", "p1", "p2", "p3"⟩])], []⟩,
    some "c", none, [⟨"1", "A"⟩], 1⟩

/-- An import source lacking the 姓名 column. -/
def exF9 : ImportFile := ⟨["学号"], [[some "1"]]⟩

/-- `exS` with one extra attendance file, belonging to some other class,
alongside the selected class's tables. -/
def exFS8 : FS :=
  ⟨exFS.files ++ [(attPath "zz", .attendance [⟨"9", "Z", .present, "d0", "t0"⟩])], []⟩

/-- Session state for class `ab` in a store that also holds another
class's attendance log. -/
def exS8 : AppState := { exS with fs := exFS8 }

/-! ### Association-list and filesystem lemmas -/

theorem assocSet_find_self (l : List (String × FileData)) (k : String) (v : FileData) :
    (assocSet l k v).find? (fun q => q.1 == k) = some (k, v) := by
  induction l with
  | nil => simp [assocSet]
  | cons p t ih =>
    by_cases h : p.1 = k
    · simp [assocSet, h]
    · simp [assocSet, h, List.find?, ih]

theorem assocSet_find_other (l : List (String × FileData)) (k : String) (v : FileData)
    (q : String) (h : q ≠ k) :
    (assocSet l k v).find? (fun r => r.1 == q) = l.find? (fun r => r.1 == q) := by
  induction l with
  | nil =>
    have hk : (k == q) = false := by simp [Ne.symm h]
    simp [assocSet, List.find?, hk]
  | cons p t ih =>
    by_cases hp : p.1 = k
    · simp only [assocSet, hp, beq_self_eq_true, if_true, List.find?]
      have : (k == q) = false := by simp [Ne.symm h]
      simp [this, hp]
    · simp only [assocSet, List.find?]
      have : (p.1 == k) = false := by simp [hp]
      simp only [this, if_false, List.find?]
      by_cases hq : p.1 = q
      · simp [hq]
      · have hq' : (p.1 == q) = false := by simp [hq]
        simp [hq', ih]

theorem filter_find_other (l : List (String × FileData)) (src q : String) (h : q ≠ src) :
    (l.filter (fun r => r.1 != src)).find? (fun r => r.1 == q) =
      l.find? (fun r => r.1 == q) := by
  induction l with
  | nil => simp
  | cons p t ih =>
    by_cases hp : p.1 = src
    · have : (p.1 != src) = false := by simp [hp]
      have hq' : (p.1 == q) = false := by simp [hp, Ne.symm h]
      simp [List.filter, this, List.find?, hq', ih]
    · have hps : (p.1 != src) = true := by simp [hp]
      by_cases hq : p.1 = q
      · subst hq
        simp [List.filter, hps, List.find?]
      · have hq' : (p.1 == q) = false := by simp [hq]
        simp [List.filter, hps, List.find?, hq', ih]

theorem FS.write_eq (fs : FS) (p : String) (d : FileData) (h : p ∉ fs.locked) :
    fs.write p d = some ⟨assocSet fs.files p d, fs.locked⟩ := by
  simp [FS.write, h]

theorem FS.write_none (fs : FS) (p : String) (d : FileData) (h : p ∈ fs.locked) :
    fs.write p d = none := by
  simp [FS.write, h]

theorem FS.read_write_self {fs fs' : FS} {p : String} {d : FileData}
    (h : fs.write p d = some fs') : fs'.read p = some d := by
  by_cases hl : p ∈ fs.locked
  · simp [FS.write_none fs p d hl] at h
  · rw [FS.write_eq fs p d hl] at h
    cases h
    simp [FS.read, assocSet_find_self]

theorem FS.read_write_other {fs fs' : FS} {p : String} {d : FileData}
    (h : fs.write p d = some fs') {q : String} (hq : q ≠ p) :
    fs'.read q = fs.read q := by
  by_cases hl : p ∈ fs.locked
  · simp [FS.write_none fs p d hl] at h
  · rw [FS.write_eq fs p d hl] at h
    cases h
    simp [FS.read, assocSet_find_other _ _ _ _ hq]

theorem FS.locked_write {fs fs' : FS} {p : String} {d : FileData}
    (h : fs.write p d = some fs') : fs'.locked = fs.locked := by
  by_cases hl : p ∈ fs.locked
  · simp [FS.write_none fs p d hl] at h
  · rw [FS.write_eq fs p d hl] at h
    cases h
    rfl

theorem FS.pathExists_of_read {fs : FS} {p : String} {d : FileData}
    (h : fs.read p = some d) : fs.pathExists p = true := by
  unfold FS.read at h
  unfold FS.pathExists
  rcases hf : fs.files.find? (fun q => q.1 == p) with _ | e
  · rw [hf] at h; simp at h
  · have he := List.find?_some hf
    exact List.any_eq_true.mpr ⟨e, List.mem_of_find?_eq_some hf, he⟩

theorem FS.rename_eq (fs : FS) (src dst : String) (d : FileData)
    (hr : fs.read src = some d) (h1 : src ∉ fs.locked) (h2 : dst ∉ fs.locked) :
    fs.rename src dst =
      some ⟨assocSet (fs.files.filter (fun q => q.1 != src)) dst d, fs.locked⟩ := by
  unfold FS.rename
  rw [hr]
  simp [h1, h2]

theorem FS.read_rename_other {fs fs' : FS} {src dst : String}
    (h : fs.rename src dst = some fs') {q : String} (hq1 : q ≠ src) (hq2 : q ≠ dst) :
    fs'.read q = fs.read q := by
  unfold FS.rename at h
  rcases hr : fs.read src with _ | d
  · rw [hr] at h; cases h; rfl
  · rw [hr] at h
    by_cases hl : src ∈ fs.locked ∨ dst ∈ fs.locked
    · simp [hl] at h
    · simp only [hl, if_false] at h
      cases h
      show (FS.read ⟨assocSet (fs.files.filter (fun q => q.1 != src)) dst d, fs.locked⟩ q) = _
      unfold FS.read
      rw [assocSet_find_other _ _ _ _ hq2, filter_find_other _ _ _ hq1]

theorem FS.read_rename_self {fs fs' : FS} {src dst : String} {d : FileData}
    (hr : fs.read src = some d) (h : fs.rename src dst = some fs') :
    fs'.read dst = some d := by
  unfold FS.rename at h
  rw [hr] at h
  by_cases hl : src ∈ fs.locked ∨ dst ∈ fs.locked
  · simp [hl] at h
  · simp only [hl, if_false] at h
    cases h
    show (FS.read ⟨assocSet (fs.files.filter (fun q => q.1 != src)) dst d, fs.locked⟩ dst) = _
    unfold FS.read
    rw [assocSet_find_self]
    rfl

theorem FS.locked_rename {fs fs' : FS} {src dst : String}
    (h : fs.rename src dst = some fs') : fs'.locked = fs.locked := by
  unfold FS.rename at h
  rcases hr : fs.read src with _ | d
  · rw [hr] at h; cases h; rfl
  · rw [hr] at h
    by_cases hl : src ∈ fs.locked ∨ dst ∈ fs.locked
    · simp [hl] at h
    · simp only [hl, if_false] at h
      cases h
      rfl

/-! ### Characterizations of record_status -/

theorem record_status_past (s : AppState) (cf : ClassFiles) (st : Status) (d t : String)
    (h1 : s.current_files = some cf) (h2 : s.students.length ≤ s.current_index) :
    record_status s st d t = (s, .error .indexError) := by
  have hn : s.students[s.current_index]? = none := List.getElem?_eq_none h2
  unfold record_status
  rw [h1, hn]

theorem record_status_att_read_fail (s : AppState) (cf : ClassFiles) (st : Status)
    (d t : String) (h1 : s.current_files = some cf)
    (hlt : s.current_index < s.students.length)
    (hatt : ∀ l, s.fs.read cf.attendanceFile ≠ some (.attendance l)) :
    record_status s st d t = (s, .error (.readFail cf.attendanceFile)) := by
  have hstu : s.students[s.current_index]? = some s.students[s.current_index] :=
    List.getElem?_eq_getElem hlt
  rcases hr : s.fs.read cf.attendanceFile with _ | fd
  · unfold record_status; simp only [h1, hstu, hr]
  · cases fd with
    | attendance l => exact absurd hr (hatt l)
    | roster rows => unfold record_status; simp only [h1, hstu, hr]
    | stats rows => unfold record_status; simp only [h1, hstu, hr]
    | classIndex rows => unfold record_status; simp only [h1, hstu, hr]

theorem record_status_att_locked (s : AppState) (cf : ClassFiles) (st : Status)
    (d t : String) (h1 : s.current_files = some cf)
    (hlt : s.current_index < s.students.length)
    (l : List AttendanceRecord)
    (hatt : s.fs.read cf.attendanceFile = some (.attendance l))
    (hB : cf.attendanceFile ∈ s.fs.locked) :
    record_status s st d t = (s, .error (.writeFail cf.attendanceFile)) := by
  have hstu : s.students[s.current_index]? = some s.students[s.current_index] :=
    List.getElem?_eq_getElem hlt
  unfold record_status
  simp only [h1, hstu, hatt, FS.write_none _ _ _ hB]

theorem record_status_stats_fail (s : AppState) (cf : ClassFiles) (st : Status)
    (d t : String) (h1 : s.current_files = some cf)
    (hne : cf.attendanceFile ≠ cf.statsFile)
    (hlt : s.current_index < s.students.length)
    (l : List AttendanceRecord)
    (hatt : s.fs.read cf.attendanceFile = some (.attendance l))
    (hla : cf.attendanceFile ∉ s.fs.locked)
    (hfail : (∀ rs, s.fs.read cf.statsFile ≠ some (.stats rs)) ∨ cf.statsFile ∈ s.fs.locked) :
    ∃ e, record_status s st d t =
      ({ s with fs := ⟨assocSet s.fs.files cf.attendanceFile
          (.attendance (l ++ [⟨(s.students[s.current_index]).sid,
            (s.students[s.current_index]).sname, st, d, t⟩])), s.fs.locked⟩ },
        .error e) ∧ e.isStorage = true := by
  have hstu : s.students[s.current_index]? = some s.students[s.current_index] :=
    List.getElem?_eq_getElem hlt
  have hw1 := FS.write_eq s.fs cf.attendanceFile
    (.attendance (l ++ [⟨(s.students[s.current_index]).sid,
      (s.students[s.current_index]).sname, st, d, t⟩])) hla
  set fs1 : FS := ⟨assocSet s.fs.files cf.attendanceFile
    (.attendance (l ++ [⟨(s.students[s.current_index]).sid,
      (s.students[s.current_index]).sname, st, d, t⟩])), s.fs.locked⟩ with hfs1
  have hro : fs1.read cf.statsFile = s.fs.read cf.statsFile :=
    FS.read_write_other hw1 (Ne.symm hne)
  rcases hs : s.fs.read cf.statsFile with _ | fd
  · refine ⟨.readFail cf.statsFile, ?_, rfl⟩
    unfold record_status
    simp only [h1, hstu, hatt, hw1, hro, hs]
  · cases fd with
    | stats rs =>
      rcases hfail with hno | hsl
      · exact absurd hs (hno rs)
      · refine ⟨.writeFail cf.statsFile, ?_, rfl⟩
        unfold record_status
        simp only [h1, hstu, hatt, hw1, hro, hs,
          FS.write_none fs1 cf.statsFile _ hsl]
    | roster rows =>
      refine ⟨.readFail cf.statsFile, ?_, rfl⟩
      unfold record_status
      simp only [h1, hstu, hatt, hw1, hro, hs]
    | attendance l2 =>
      refine ⟨.readFail cf.statsFile, ?_, rfl⟩
      unfold record_status
      simp only [h1, hstu, hatt, hw1, hro, hs]
    | classIndex rows =>
      refine ⟨.readFail cf.statsFile, ?_, rfl⟩
      unfold record_status
      simp only [h1, hstu, hatt, hw1, hro, hs]

theorem record_status_step (s : AppState) (cf : ClassFiles) (st : Status) (d t : String)
    (hg : GoodSession s cf) (hlt : s.current_index < s.students.length) :
    ∃ s', record_status s st d t =
        (s', .ok (if s.current_index + 1 < s.students.length then .advanced else .completed)) ∧
      GoodSession s' cf ∧ s'.current_index = s.current_index + 1 ∧
      s'.students = s.students ∧ s'.current_class = s.current_class := by
  obtain ⟨h1, hne, ⟨l, hatt⟩, ⟨rs, hsta⟩, hla, hls⟩ := hg
  have hstu : s.students[s.current_index]? = some s.students[s.current_index] :=
    List.getElem?_eq_getElem hlt
  have hw1 := FS.write_eq s.fs cf.attendanceFile
    (.attendance (l ++ [⟨(s.students[s.current_index]).sid,
      (s.students[s.current_index]).sname, st, d, t⟩])) hla
  set fs1 : FS := ⟨assocSet s.fs.files cf.attendanceFile
    (.attendance (l ++ [⟨(s.students[s.current_index]).sid,
      (s.students[s.current_index]).sname, st, d, t⟩])), s.fs.locked⟩ with hfs1
  have hro : fs1.read cf.statsFile = s.fs.read cf.statsFile :=
    FS.read_write_other hw1 (Ne.symm hne)
  have hl1 : fs1.locked = s.fs.locked := FS.locked_write hw1
  have hls1 : cf.statsFile ∉ fs1.locked := by rw [hl1]; exact hls
  have hw2 := FS.write_eq fs1 cf.statsFile
    (.stats (incStats rs (s.students[s.current_index]).sid st)) hls1
  set fs2 : FS := ⟨assocSet fs1.files cf.statsFile
    (.stats (incStats rs (s.students[s.current_index]).sid st)), fs1.locked⟩ with hfs2
  refine ⟨{ s with fs := fs2, current_index := s.current_index + 1 }, ?_, ?_, rfl, rfl, rfl⟩
  · unfold record_status
    simp only [h1, hstu, hatt, hw1, hro, hsta, hw2]
    by_cases hc : s.current_index + 1 < s.students.length
    · simp only [hc, if_true]
    · simp only [hc, if_false]
  · refine ⟨h1, hne, ⟨l ++ [⟨(s.students[s.current_index]).sid,
      (s.students[s.current_index]).sname, st, d, t⟩], ?_⟩,
      ⟨incStats rs (s.students[s.current_index]).sid st, ?_⟩, ?_, ?_⟩
    · have := FS.read_write_other hw2 hne
      rw [this]
      exact FS.read_write_self hw1
    · exact FS.read_write_self hw2
    · have h2 : fs2.locked = fs1.locked := FS.locked_write hw2
      rw [h2, hl1]; exact hla
    · have h2 : fs2.locked = fs1.locked := FS.locked_write hw2
      rw [h2, hl1]; exact hls


theorem record_status_cases (s : AppState) (st : Status) (d t : String) :
    (∃ e fs1, record_status s st d t = ({ s with fs := fs1 }, .error e)) ∨
    (s.current_index < s.students.length ∧ ∃ fs2,
      record_status s st d t =
        ({ s with fs := fs2, current_index := s.current_index + 1 },
          .ok (if s.current_index + 1 < s.students.length then .advanced else .completed))) := by
  unfold record_status
  rcases h1 : s.current_files with _ | cf
  · simp only [h1]
    exact Or.inl ⟨.noValidClass, s.fs, by rw [← h1]⟩
  simp only [h1]
  rcases h2 : s.students[s.current_index]? with _ | stu
  · simp only [h2]
    exact Or.inl ⟨.indexError, s.fs, by rw [← h1]⟩
  simp only [h2]
  have hlt : s.current_index < s.students.length :=
    (List.getElem?_eq_some.mp h2).1
  rcases h3 : s.fs.read cf.attendanceFile with _ | fd
  · simp only [h3]
    exact Or.inl ⟨.readFail cf.attendanceFile, s.fs, by rw [← h1]⟩
  cases fd with
  | roster rows =>
    simp only [h3]
    exact Or.inl ⟨.readFail cf.attendanceFile, s.fs, by rw [← h1]⟩
  | stats rows =>
    simp only [h3]
    exact Or.inl ⟨.readFail cf.attendanceFile, s.fs, by rw [← h1]⟩
  | classIndex rows =>
    simp only [h3]
    exact Or.inl ⟨.readFail cf.attendanceFile, s.fs, by rw [← h1]⟩
  | attendance l =>
    simp only [h3]
    rcases h4 : s.fs.write cf.attendanceFile
        (.attendance (l ++ [⟨stu.sid, stu.sname, st, d, t⟩])) with _ | fs1
    · simp only [h4]
      exact Or.inl ⟨.writeFail cf.attendanceFile, s.fs, by rw [← h1]⟩
    simp only [h4]
    rcases h5 : fs1.read cf.statsFile with _ | fd2
    · simp only [h5]
      exact Or.inl ⟨.readFail cf.statsFile, fs1, by rw [← h1]⟩
    cases fd2 with
    | roster rows =>
      simp only [h5]
      exact Or.inl ⟨.readFail cf.statsFile, fs1, by rw [← h1]⟩
    | attendance l2 =>
      simp only [h5]
      exact Or.inl ⟨.readFail cf.statsFile, fs1, by rw [← h1]⟩
    | classIndex rows =>
      simp only [h5]
      exact Or.inl ⟨.readFail cf.statsFile, fs1, by rw [← h1]⟩
    | stats rows =>
      simp only [h5]
      rcases h6 : fs1.write cf.statsFile
          (.stats (incStats rows stu.sid st)) with _ | fs2
      · simp only [h6]
        exact Or.inl ⟨.writeFail cf.statsFile, fs1, by rw [← h1]⟩
      simp only [h6]
      refine Or.inr ⟨hlt, fs2, ?_⟩
      rw [← h1]
      by_cases hc : s.current_index + 1 < s.students.length
      · simp only [hc, if_true]
      · simp only [hc, if_false]

theorem runRecords_good (st : Status) (d t : String) (cf : ClassFiles) :
    ∀ (k : Nat) (s : AppState), GoodSession s cf →
      s.current_index + k ≤ s.students.length →
      ∃ sk, runRecords s st d t k = some sk ∧ GoodSession sk cf ∧
        sk.current_index = s.current_index + k ∧ sk.students = s.students := by
  intro k
  induction k with
  | zero => intro s hg _; exact ⟨s, rfl, hg, rfl, rfl⟩
  | succ k ih =>
    intro s hg hle
    have hlt : s.current_index < s.students.length := by omega
    obtain ⟨s1, heq, hg1, hc1, hst1, _⟩ := record_status_step s cf st d t hg hlt
    have hrun : runRecords s st d t (k + 1) = runRecords s1 st d t k := by
      simp only [runRecords]
      rw [heq]
    obtain ⟨sk, hrk, hgk, hck, hsk⟩ := ih s1 hg1 (by rw [hc1, hst1]; omega)
    refine ⟨sk, ?_, hgk, ?_, ?_⟩
    · rw [hrun, hrk]
    · rw [hck, hc1]; omega
    · rw [hsk, hst1]


/-! ### Auxiliary combination lemma for write failures -/

theorem record_status_stats_side (s : AppState) (cf : ClassFiles) (st : Status)
    (d t : String) (h1 : s.current_files = some cf)
    (hne : cf.attendanceFile ≠ cf.statsFile)
    (hlt : s.current_index < s.students.length)
    (hsf : (∀ rs, s.fs.read cf.statsFile ≠ some (.stats rs)) ∨ cf.statsFile ∈ s.fs.locked) :
    (∃ e, (record_status s st d t).2 = .error e ∧ e.isStorage = true) ∧
      (record_status s st d t).1.current_index = s.current_index := by
  rcases hr : s.fs.read cf.attendanceFile with _ | fd
  · rw [record_status_att_read_fail s cf st d t h1 hlt
      (by intro l hcon; rw [hr] at hcon; cases hcon)]
    exact ⟨⟨.readFail cf.attendanceFile, rfl, rfl⟩, rfl⟩
  · cases fd with
    | attendance l =>
      by_cases hla : cf.attendanceFile ∈ s.fs.locked
      · rw [record_status_att_locked s cf st d t h1 hlt l hr hla]
        exact ⟨⟨.writeFail cf.attendanceFile, rfl, rfl⟩, rfl⟩
      · obtain ⟨e, heq, hst⟩ :=
          record_status_stats_fail s cf st d t h1 hne hlt l hr hla hsf
        rw [heq]
        exact ⟨⟨e, rfl, hst⟩, rfl⟩
    | roster rows =>
      rw [record_status_att_read_fail s cf st d t h1 hlt (by simp [hr])]
      exact ⟨⟨.readFail cf.attendanceFile, rfl, rfl⟩, rfl⟩
    | stats rows =>
      rw [record_status_att_read_fail s cf st d t h1 hlt (by simp [hr])]
      exact ⟨⟨.readFail cf.attendanceFile, rfl, rfl⟩, rfl⟩
    | classIndex rows =>
      rw [record_status_att_read_fail s cf st d t h1 hlt (by simp [hr])]
      exact ⟨⟨.readFail cf.attendanceFile, rfl, rfl⟩, rfl⟩

/-! ### The claims -/

/-- Claim C1 (code bug): with a session on student id 1 whose statistics
table has no row for id 1, `record_status` does not fail at all — the
pandas masked increment `stats_df.loc[mask, status] += 1` is a silent no-op
for an empty mask — so the call reports success, leaves the statistics
table unchanged, and advances the cursor, where the spec requires a
`StatNotFoundError` surfaced to the caller. -/
theorem c1_missing_stat_row_silent :
    (record_status exSNoStat .present "2025-01-01" "08:00:00").2 = .ok .completed ∧
    (record_status exSNoStat .present "2025-01-01" "08:00:00").1.fs.read (staPath "ab") =
      some (.stats [⟨"2", "B", 0, 0, 0⟩]) ∧
    (record_status exSNoStat .present "2025-01-01" "08:00:00").1.current_index = 1 := by
  exact ⟨rfl, rfl, rfl⟩

/-- Claim C2: whenever the attendance-log append step or the statistics
increment step of `record_status` fails (missing or locked file at either
path), the whole call fails with a storage error and the cursor keeps its
pre-call value. -/
theorem c2_write_failure_no_advance (s : AppState) (cf : ClassFiles) (st : Status)
    (d t : String)
    (h1 : s.current_files = some cf)
    (hlt : s.current_index < s.students.length)
    (hne : cf.attendanceFile ≠ cf.statsFile)
    (hfail : (∀ l, s.fs.read cf.attendanceFile ≠ some (.attendance l)) ∨
             cf.attendanceFile ∈ s.fs.locked ∨
             (∀ rs, s.fs.read cf.statsFile ≠ some (.stats rs)) ∨
             cf.statsFile ∈ s.fs.locked) :
    (∃ e, (record_status s st d t).2 = .error e ∧ e.isStorage = true) ∧
      (record_status s st d t).1.current_index = s.current_index := by
  rcases hfail with hA | hB | hC | hD
  · rw [record_status_att_read_fail s cf st d t h1 hlt hA]
    exact ⟨⟨.readFail cf.attendanceFile, rfl, rfl⟩, rfl⟩
  · rcases hr : s.fs.read cf.attendanceFile with _ | fd
    · rw [record_status_att_read_fail s cf st d t h1 hlt
        (by intro l hcon; rw [hr] at hcon; cases hcon)]
      exact ⟨⟨.readFail cf.attendanceFile, rfl, rfl⟩, rfl⟩
    · cases fd with
      | attendance l =>
        rw [record_status_att_locked s cf st d t h1 hlt l hr hB]
        exact ⟨⟨.writeFail cf.attendanceFile, rfl, rfl⟩, rfl⟩
      | roster rows =>
        rw [record_status_att_read_fail s cf st d t h1 hlt (by simp [hr])]
        exact ⟨⟨.readFail cf.attendanceFile, rfl, rfl⟩, rfl⟩
      | stats rows =>
        rw [record_status_att_read_fail s cf st d t h1 hlt (by simp [hr])]
        exact ⟨⟨.readFail cf.attendanceFile, rfl, rfl⟩, rfl⟩
      | classIndex rows =>
        rw [record_status_att_read_fail s cf st d t h1 hlt (by simp [hr])]
        exact ⟨⟨.readFail cf.attendanceFile, rfl, rfl⟩, rfl⟩
  · exact record_status_stats_side s cf st d t h1 hne hlt (Or.inl hC)
  · exact record_status_stats_side s cf st d t h1 hne hlt (Or.inr hD)

/-- Witness for C2 at a concrete state: statistics file locked by another
program. -/
theorem c2_witness :
    exSLocked.current_files = some exCF ∧
    exSLocked.current_index < exSLocked.students.length ∧
    exCF.statsFile ∈ exSLocked.fs.locked ∧
    ((∃ e, (record_status exSLocked .present "d" "t").2 = .error e ∧ e.isStorage = true) ∧
      (record_status exSLocked .present "d" "t").1.current_index = exSLocked.current_index) :=
  ⟨rfl, by decide, by decide,
    c2_write_failure_no_advance exSLocked exCF .present "d" "t" rfl (by decide) (by decide)
      (Or.inr (Or.inr (Or.inr (by decide))))⟩

/-- Claim C4 counterexample: deleting the selected class clears the roster
snapshot but never resets the cursor, so after `delete_class` on a session
whose cursor is 1 the state has `current_index = 1 > 0 = students.length`,
violating the claimed invariant `cursor ≤ len(students)`. -/
theorem c4_counterexample :
    (delete_class exS4 "20250101" "120000" true).2 = .ok () ∧
    ¬ ((delete_class exS4 "20250101" "120000" true).1.current_index ≤
        (delete_class exS4 "20250101" "120000" true).1.students.length) := by
  decide

/-- Claim C5 counterexample: the index already holds the raw name `a b`,
whose sanitized base equals that of `a_b`; `save_class` on `a_b` does not
fail with the duplicate error — it succeeds and appends a second index row
pointing at the very same three table files. -/
theorem c5_counterexample :
    sanitizeBase "a_b" = sanitizeBase "a b" ∧
    (load_classes exFS5).map (fun r => r.cname) = ["a b"] ∧
    (save_class exFS5 "a_b").2 = .ok ⟨stuPath "a_b", attPath "a_b", staPath "a_b"⟩ ∧
    load_classes (save_class exFS5 "a_b").1 =
      [⟨"a b", stuPath "a_b", attPath "a_b", staPath "a_b"⟩,
       ⟨"a_b", stuPath "a_b", attPath "a_b", staPath "a_b"⟩] := by
  decide

/-- Claim C6 counterexample: the class registered as `a?b` (sanitized base
`ab`) is selected; a successful one-row import leaves the class's
registered statistics file `data/ab_stats.xlsx` untouched — still carrying
a prior nonzero 出勤 count — because `import_students` rebuilds the base
name without stripping the illegal `?` and writes the fresh zero-row
statistics to `data/a?b_stats.xlsx` instead. -/
theorem c6_counterexample :
    (import_students exS6 exF6).2 = .ok () ∧
    (load_classes (import_students exS6 exF6).1.fs).map (fun r => r.statsFile) =
      [staPath "ab"] ∧
    (import_students exS6 exF6).1.fs.read (staPath "ab") =
      some (.stats [⟨"9", "Z", 5, 0, 0⟩]) ∧
    (import_students exS6 exF6).1.fs.read (staPath "a?b") =
      some (.stats [⟨"1", "A", 0, 0, 0⟩]) := by
  decide

/-- Claim C7 counterexample: with the UI naming class `X` while the index
holds no whitespace-trimmed match for it, `delete_class` completes with
success — there is no not-found check anywhere in the code — leaving the
index unchanged instead of failing with a class-not-found error. -/
theorem c7_counterexample :
    (load_classes exS7.fs).filter (fun r => strTrim r.cname == strTrim "X") = [] ∧
    delete_class exS7 "20250101" "120000" false =
      (⟨⟨[(classesPath, .classIndex [⟨"Y", "p1", "p2", "p3"⟩])], []⟩,
        some "X", none, [], 0⟩, .ok ()) := by
  decide

/-- Claim C9: an import input missing a required column (学号 or 姓名)
makes `import_students` fail with the schema error listing exactly the
missing fields, and the whole state — in particular every persisted
file — is returned unchanged. -/
theorem c9_schema_error_unchanged (s : AppState) (f : ImportFile)
    (h : requiredCols.filter (fun c => c ∉ f.cols) ≠ []) :
    import_students s f =
      (s, .error (.schemaErr (requiredCols.filter (fun c => c ∉ f.cols)))) := by
  unfold import_students
  rw [if_pos h]

/-- Witness for C9: importing a file that has only the 学号 column fails
with the schema error naming 姓名 and leaves the state untouched. -/
theorem c9_witness :
    requiredCols.filter (fun c => c ∉ exF9.cols) ≠ [] ∧
    import_students exS exF9 =
      (exS, .error (.schemaErr (requiredCols.filter (fun c => c ∉ exF9.cols)))) :=
  ⟨by decide, c9_schema_error_unchanged exS exF9 (by decide)⟩


/-- Any call to `record_status` leaves a log whose first `l.length` rows
are still exactly `l`, and a successful call appends exactly one row. -/
theorem record_status_append_aux (s : AppState) (cf : ClassFiles) (st : Status) (d t : String)
    (l : List AttendanceRecord)
    (h1 : s.current_files = some cf)
    (hatt : s.fs.read cf.attendanceFile = some (.attendance l)) :
    ∃ l', (record_status s st d t).1.fs.read cf.attendanceFile = some (.attendance l') ∧
      l'.take l.length = l ∧
      (∀ o, (record_status s st d t).2 = .ok o → ∃ rec1, l' = l ++ [rec1]) := by
  by_cases hlt : s.current_index < s.students.length
  · by_cases hla : cf.attendanceFile ∈ s.fs.locked
    · rw [record_status_att_locked s cf st d t h1 hlt l hatt hla]
      exact ⟨l, hatt, List.take_length l, fun o ho => nomatch ho⟩
    · obtain ⟨stu, hstu⟩ : ∃ stu, s.students[s.current_index]? = some stu :=
        ⟨_, List.getElem?_eq_getElem hlt⟩
      have hw1 := FS.write_eq s.fs cf.attendanceFile
        (.attendance (l ++ [⟨stu.sid, stu.sname, st, d, t⟩])) hla
      set fs1 : FS := ⟨assocSet s.fs.files cf.attendanceFile
        (.attendance (l ++ [⟨stu.sid, stu.sname, st, d, t⟩])), s.fs.locked⟩ with hfs1
      have hratt1 : fs1.read cf.attendanceFile =
          some (.attendance (l ++ [⟨stu.sid, stu.sname, st, d, t⟩])) :=
        FS.read_write_self hw1
      rcases hs : fs1.read cf.statsFile with _ | fd2
      · have heq : record_status s st d t =
            ({ s with fs := fs1 }, .error (.readFail cf.statsFile)) := by
          unfold record_status
          simp only [h1, hstu, hatt, hw1, hs]
        rw [heq]
        exact ⟨l ++ [⟨stu.sid, stu.sname, st, d, t⟩], hratt1, List.take_left _ _,
          fun o ho => nomatch ho⟩
      · cases fd2 with
        | roster rows =>
          have heq : record_status s st d t =
              ({ s with fs := fs1 }, .error (.readFail cf.statsFile)) := by
            unfold record_status
            simp only [h1, hstu, hatt, hw1, hs]
          rw [heq]
          exact ⟨l ++ [⟨stu.sid, stu.sname, st, d, t⟩], hratt1, List.take_left _ _,
            fun o ho => nomatch ho⟩
        | attendance l2 =>
          have heq : record_status s st d t =
              ({ s with fs := fs1 }, .error (.readFail cf.statsFile)) := by
            unfold record_status
            simp only [h1, hstu, hatt, hw1, hs]
          rw [heq]
          exact ⟨l ++ [⟨stu.sid, stu.sname, st, d, t⟩], hratt1, List.take_left _ _,
            fun o ho => nomatch ho⟩
        | classIndex rows =>
          have heq : record_status s st d t =
              ({ s with fs := fs1 }, .error (.readFail cf.statsFile)) := by
            unfold record_status
            simp only [h1, hstu, hatt, hw1, hs]
          rw [heq]
          exact ⟨l ++ [⟨stu.sid, stu.sname, st, d, t⟩], hratt1, List.take_left _ _,
            fun o ho => nomatch ho⟩
        | stats rows =>
          by_cases hls : cf.statsFile ∈ fs1.locked
          · have heq : record_status s st d t =
                ({ s with fs := fs1 }, .error (.writeFail cf.statsFile)) := by
              unfold record_status
              simp only [h1, hstu, hatt, hw1, hs, FS.write_none fs1 cf.statsFile _ hls]
            rw [heq]
            exact ⟨l ++ [⟨stu.sid, stu.sname, st, d, t⟩], hratt1, List.take_left _ _,
              fun o ho => nomatch ho⟩
          · have hw2 := FS.write_eq fs1 cf.statsFile
              (.stats (incStats rows stu.sid st)) hls
            have hne : cf.attendanceFile ≠ cf.statsFile := by
              intro he
              rw [he] at hratt1
              rw [hratt1] at hs
              simp at hs
            set fs2 : FS := ⟨assocSet fs1.files cf.statsFile
              (.stats (incStats rows stu.sid st)), fs1.locked⟩ with hfs2
            have hratt2 : fs2.read cf.attendanceFile =
                some (.attendance (l ++ [⟨stu.sid, stu.sname, st, d, t⟩])) := by
              rw [FS.read_write_other hw2 hne]
              exact hratt1
            have heq : record_status s st d t =
                ({ s with fs := fs2, current_index := s.current_index + 1 },
                  .ok (if s.current_index + 1 < s.students.length
                       then .advanced else .completed)) := by
              unfold record_status
              simp only [h1, hstu, hatt, hw1, hs, hw2]
              by_cases hc : s.current_index + 1 < s.students.length
              · simp only [hc, if_true]
              · simp only [hc, if_false]
            rw [heq]
            exact ⟨l ++ [⟨stu.sid, stu.sname, st, d, t⟩], hratt2, List.take_left _ _,
              fun o _ => ⟨⟨stu.sid, stu.sname, st, d, t⟩, rfl⟩⟩
  · have hge : s.students.length ≤ s.current_index := Nat.le_of_not_lt hlt
    rw [record_status_past s cf st d t h1 hge]
    exact ⟨l, hatt, List.take_length l, fun o ho => nomatch ho⟩


/-- Claim C10: `record_status` is not atomic across its two writes.  If the
statistics step fails after the attendance append succeeded, the appended
log row stays persisted while the statistics table and the cursor are
unchanged; retrying the same student then appends a second log row with
the same student id. -/
theorem c10_nonatomic_retry (s : AppState) (cf : ClassFiles) (st st2 : Status)
    (d t d2 t2 : String) (stu : Student) (l : List AttendanceRecord)
    (h1 : s.current_files = some cf)
    (hne : cf.attendanceFile ≠ cf.statsFile)
    (hstu : s.students[s.current_index]? = some stu)
    (hatt : s.fs.read cf.attendanceFile = some (.attendance l))
    (hla : cf.attendanceFile ∉ s.fs.locked)
    (hsf : (∀ rs, s.fs.read cf.statsFile ≠ some (.stats rs)) ∨ cf.statsFile ∈ s.fs.locked) :
    (∃ e1, (record_status s st d t).2 = .error e1 ∧ e1.isStorage = true) ∧
    (record_status s st d t).1.fs.read cf.attendanceFile =
      some (.attendance (l ++ [⟨stu.sid, stu.sname, st, d, t⟩])) ∧
    (record_status s st d t).1.fs.read cf.statsFile = s.fs.read cf.statsFile ∧
    (record_status s st d t).1.current_index = s.current_index ∧
    (record_status (record_status s st d t).1 st2 d2 t2).1.fs.read cf.attendanceFile =
      some (.attendance (l ++ [⟨stu.sid, stu.sname, st, d, t⟩,
        ⟨stu.sid, stu.sname, st2, d2, t2⟩])) ∧
    (record_status (record_status s st d t).1 st2 d2 t2).1.current_index =
      s.current_index := by
  have hlt : s.current_index < s.students.length := (List.getElem?_eq_some.mp hstu).1
  have hget : s.students[s.current_index] = stu := (List.getElem?_eq_some.mp hstu).2
  obtain ⟨e1, heq1, hst1⟩ :=
    record_status_stats_fail s cf st d t h1 hne hlt l hatt hla hsf
  rw [hget] at heq1
  have hw1 := FS.write_eq s.fs cf.attendanceFile
    (.attendance (l ++ [⟨stu.sid, stu.sname, st, d, t⟩])) hla
  set fs1 : FS := ⟨assocSet s.fs.files cf.attendanceFile
    (.attendance (l ++ [⟨stu.sid, stu.sname, st, d, t⟩])), s.fs.locked⟩ with hfs1
  have hatt1 : fs1.read cf.attendanceFile =
      some (.attendance (l ++ [⟨stu.sid, stu.sname, st, d, t⟩])) :=
    FS.read_write_self hw1
  have hsta1 : fs1.read cf.statsFile = s.fs.read cf.statsFile :=
    FS.read_write_other hw1 (Ne.symm hne)
  -- the state after the first failed call
  set s1 : AppState := { s with fs := fs1 } with hs1
  have heq1' : record_status s st d t = (s1, .error e1) := heq1
  -- second call from s1, same hypotheses with the grown log
  have hstu1 : s1.students[s1.current_index]? = some stu := hstu
  have hsf1 : (∀ rs, s1.fs.read cf.statsFile ≠ some (.stats rs)) ∨
      cf.statsFile ∈ s1.fs.locked := by
    rcases hsf with hno | hl
    · exact Or.inl (fun rs hcon => hno rs (by rw [← hsta1]; exact hcon))
    · exact Or.inr hl
  obtain ⟨e2, heq2, hst2⟩ :=
    record_status_stats_fail s1 cf st2 d2 t2 h1 hne hlt
      (l ++ [⟨stu.sid, stu.sname, st, d, t⟩]) hatt1 hla hsf1
  have hget1 : s1.students[s1.current_index] = stu := hget
  rw [hget1] at heq2
  have hw2 := FS.write_eq s1.fs cf.attendanceFile
    (.attendance ((l ++ [⟨stu.sid, stu.sname, st, d, t⟩]) ++
      [⟨stu.sid, stu.sname, st2, d2, t2⟩])) hla
  have hatt2 : (FS.read ⟨assocSet s1.fs.files cf.attendanceFile
      (.attendance ((l ++ [⟨stu.sid, stu.sname, st, d, t⟩]) ++
        [⟨stu.sid, stu.sname, st2, d2, t2⟩])), s1.fs.locked⟩ cf.attendanceFile) =
      some (.attendance ((l ++ [⟨stu.sid, stu.sname, st, d, t⟩]) ++
        [⟨stu.sid, stu.sname, st2, d2, t2⟩])) :=
    FS.read_write_self hw2
  refine ⟨⟨e1, by rw [heq1'], hst1⟩, ?_, ?_, ?_, ?_, ?_⟩
  · rw [heq1']
    exact hatt1
  · rw [heq1']
    exact hsta1
  · rw [heq1']
  · rw [heq1']
    rw [heq2]
    rw [List.append_assoc] at hatt2
    simpa using hatt2
  · rw [heq1', heq2]

/-- Witness for C10: stats file locked, attendance file writable; the first
failing call persists one log row for student 1, the retry a second. -/
theorem c10_witness :
    exSLocked.current_files = some exCF ∧
    exCF.statsFile ∈ exSLocked.fs.locked ∧
    ((∃ e1, (record_status exSLocked .present "d" "t").2 = .error e1 ∧
        e1.isStorage = true) ∧
      (record_status exSLocked .present "d" "t").1.fs.read exCF.attendanceFile =
        some (.attendance [⟨"1", "A", .present, "d", "t"⟩]) ∧
      (record_status exSLocked .present "d" "t").1.fs.read exCF.statsFile =
        exSLocked.fs.read exCF.statsFile ∧
      (record_status exSLocked .present "d" "t").1.current_index =
        exSLocked.current_index ∧
      (record_status (record_status exSLocked .present "d" "t").1
          .present "d2" "t2").1.fs.read exCF.attendanceFile =
        some (.attendance [⟨"1", "A", .present, "d", "t"⟩,
          ⟨"1", "A", .present, "d2", "t2"⟩]) ∧
      (record_status (record_status exSLocked .present "d" "t").1
          .present "d2" "t2").1.current_index = exSLocked.current_index) := by
  refine ⟨rfl, by decide, ?_⟩
  have h := c10_nonatomic_retry exSLocked exCF .present .present "d" "t" "d2" "t2"
    ⟨"1", "A"⟩ [] rfl (by decide) rfl rfl (by decide) (Or.inr (by decide))
  exact h

/-- Claim C3: on a roster of size `N > 0` with sound storage, each of the
first `N` calls to `record_status` succeeds (reporting `advanced` for all
but the `N`-th, which reports `completed`), after which the cursor equals
the roster length, and any further call fails with the index error that
signals a completed session. -/
theorem c3_exactly_n_decisions (s : AppState) (cf : ClassFiles) (N : Nat)
    (st : Status) (d t : String)
    (hg : GoodSession s cf) (h0 : s.current_index = 0)
    (hN : s.students.length = N) (hpos : 0 < N) :
    (∀ k, k ≤ N → ∃ sk, runRecords s st d t k = some sk ∧
        sk.current_index = k ∧ sk.students.length = N ∧
        (k < N → (record_status sk st d t).2 =
          .ok (if k + 1 < N then .advanced else .completed))) ∧
    (∃ sN, runRecords s st d t N = some sN ∧
      sN.current_index = sN.students.length ∧
      record_status sN st d t = (sN, .error .indexError)) := by
  have main : ∀ k, k ≤ N → ∃ sk, runRecords s st d t k = some sk ∧ GoodSession sk cf ∧
      sk.current_index = k ∧ sk.students = s.students := by
    intro k hk
    obtain ⟨sk, ha, hb, hc, hd⟩ :=
      runRecords_good st d t cf k s hg (by rw [h0, hN]; omega)
    refine ⟨sk, ha, hb, ?_, hd⟩
    rw [hc, h0]
    exact Nat.zero_add k
  constructor
  · intro k hk
    obtain ⟨sk, hr, hgk, hck, hsk⟩ := main k hk
    refine ⟨sk, hr, hck, by rw [hsk, hN], ?_⟩
    intro hklt
    have hlt : sk.current_index < sk.students.length := by
      rw [hck, hsk, hN]; exact hklt
    obtain ⟨sk', heq, _, _, _, _⟩ := record_status_step sk cf st d t hgk hlt
    rw [heq, hck]
    have hlen : sk.students.length = N := by rw [hsk, hN]
    rw [hlen]
  · obtain ⟨sN, hr, hgN, hcN, hsN⟩ := main N (Nat.le_refl N)
    have hfiles : sN.current_files = some cf := hgN.1
    have hlen : sN.students.length ≤ sN.current_index := by
      rw [hcN, hsN, hN]
    exact ⟨sN, hr, by rw [hcN, hsN, hN],
      record_status_past sN cf st d t hfiles hlen⟩

/-- Witness for C3 on the two-student session: both calls succeed, the
second completes the session, and a third call fails past the end. -/
theorem c3_witness :
    GoodSession exS exCF ∧ exS.current_index = 0 ∧ exS.students.length = 2 ∧
    (∃ s2, runRecords exS .present "d" "t" 2 = some s2 ∧
      s2.current_index = s2.students.length ∧
      record_status s2 .present "d" "t" = (s2, .error .indexError)) := by
  have hg : GoodSession exS exCF :=
    ⟨rfl, by decide, ⟨[], rfl⟩, ⟨exStats0, rfl⟩, by decide, by decide⟩
  exact ⟨hg, rfl, by decide,
    (c3_exactly_n_decisions exS exCF 2 .present "d" "t" hg rfl (by decide)
      (by decide)).2⟩

/-- Claim C4 (amended): the cursor invariant `cursor ≤ len(students)` is
preserved by `start_attendance` and `record_status`, and `replay_name`
changes no state; a successful `record_status` reports completion exactly
when the new cursor equals the roster length.  `delete_class` does NOT
preserve the invariant (see the counterexample): it clears the roster
snapshot without resetting the cursor. -/
theorem c4_cursor_invariant (s : AppState) (st : Status) (d t : String)
    (h : s.current_index ≤ s.students.length) :
    (start_attendance s).1.current_index ≤ (start_attendance s).1.students.length ∧
    (record_status s st d t).1.current_index ≤
      (record_status s st d t).1.students.length ∧
    replay_name s = s ∧
    ((record_status s st d t).2 = .ok .completed ↔
      (∃ o, (record_status s st d t).2 = .ok o) ∧
        (record_status s st d t).1.current_index =
          (record_status s st d t).1.students.length) := by
  refine ⟨?_, ?_, rfl, ?_⟩
  · unfold start_attendance
    rcases hcc : s.current_class with _ | cname
    · simp only [hcc]
      exact h
    · simp only [hcc]
      by_cases hce : cname = ""
      · rw [if_pos hce]
        exact h
      · rw [if_neg hce]
        rcases hcf : s.current_files with _ | cf
        · simp only [hcf]
          exact h
        · simp only [hcf]
          rcases hread : s.fs.read cf.studentsFile with _ | fd
          · simp only [hread]
            exact h
          · cases fd with
            | roster rows =>
              simp only [hread]
              by_cases hemp : rows.isEmpty
              · simp only [hemp, if_true]
                exact Nat.zero_le _
              · simp only [hemp, if_false]
                exact Nat.zero_le _
            | attendance l2 =>
              simp only [hread]
              exact h
            | stats rows =>
              simp only [hread]
              exact h
            | classIndex rows =>
              simp only [hread]
              exact h
  · rcases record_status_cases s st d t with ⟨e, fs1, heq⟩ | ⟨hlt, fs2, heq⟩
    · rw [heq]
      exact h
    · rw [heq]
      exact hlt
  · rcases record_status_cases s st d t with ⟨e, fs1, heq⟩ | ⟨hlt, fs2, heq⟩
    · rw [heq]
      constructor
      · intro hcon
        exact nomatch hcon
      · rintro ⟨⟨o, ho⟩, -⟩
        exact nomatch ho
    · rw [heq]
      by_cases hc : s.current_index + 1 < s.students.length
      · simp only [hc, if_true]
        constructor
        · intro hcon
          simp at hcon
        · rintro ⟨-, hlen⟩
          exfalso
          have hlen' : s.current_index + 1 = s.students.length := hlen
          omega
      · simp only [hc, if_false]
        constructor
        · intro _
          refine ⟨⟨.completed, rfl⟩, ?_⟩
          show s.current_index + 1 = s.students.length
          omega
        · intro _
          trivial

/-- Witness for C4 (amended) on the two-student session state. -/
theorem c4_witness :
    exS.current_index ≤ exS.students.length ∧
    ((start_attendance exS).1.current_index ≤
        (start_attendance exS).1.students.length ∧
      (record_status exS .present "d" "t").1.current_index ≤
        (record_status exS .present "d" "t").1.students.length ∧
      replay_name exS = exS ∧
      ((record_status exS .present "d" "t").2 = .ok .completed ↔
        (∃ o, (record_status exS .present "d" "t").2 = .ok o) ∧
          (record_status exS .present "d" "t").1.current_index =
            (record_status exS .present "d" "t").1.students.length)) :=
  ⟨by decide, c4_cursor_invariant exS .present "d" "t" (by decide)⟩


/-- Claim C5 (amended): `save_class` checks only the raw name against the
raw stored names.  For a name whose raw form already occurs in the index
(and whose three table files exist, as `save_class` itself leaves them),
the call fails with the duplicate-class error and returns the store
completely unchanged.  A name colliding only after sanitization is not
detected (see the counterexample). -/
theorem c5_duplicate_raw_name (fs : FS) (class_name : String) (rows : List ClassRow)
    (hidx : fs.read classesPath = some (.classIndex rows))
    (hdup : class_name ∈ rows.map (fun r => r.cname))
    (he1 : fs.pathExists (stuPath (sanitizeBase class_name)) = true)
    (he2 : fs.pathExists (attPath (sanitizeBase class_name)) = true)
    (he3 : fs.pathExists (staPath (sanitizeBase class_name)) = true) :
    save_class fs class_name = (fs, .error .dupClass) := by
  unfold save_class
  simp only [ensureFile, he1, he2, he3, if_true, hidx]
  rw [if_pos hdup]

/-- Witness for C5 (amended): re-creating the existing class `ab` fails
with the duplicate error and leaves the store unchanged. -/
theorem c5_witness :
    "ab" ∈ ([(⟨"ab", stuPath "ab", attPath "ab", staPath "ab"⟩ : ClassRow)]).map
      (fun r => r.cname) ∧
    save_class exFS "ab" = (exFS, .error .dupClass) :=
  ⟨by decide,
    c5_duplicate_raw_name exFS "ab" [⟨"ab", stuPath "ab", attPath "ab", staPath "ab"⟩]
      rfl (by decide) (by decide) (by decide) (by decide)⟩

/-- Claim C6 (amended): for a class name that the two name cleanings agree
on (no illegal characters, as for every name `save_class` can route back to
the same files), a valid import replaces the roster file with exactly the
cleaned rows — blanks and exact duplicates dropped — and regenerates the
statistics file with exactly one zero-initialized row per surviving roster
row, discarding all prior contents of both tables.  For names containing
illegal characters the registered statistics table is NOT regenerated (see
the counterexample). -/
theorem c6_import_replaces_tables (s : AppState) (cname : String) (f : ImportFile)
    (irows : List ClassRow)
    (hcc : s.current_class = some cname)
    (hne0 : ¬ cname = "")
    (hsan : stripIllegal (strTrim cname) = strTrim cname)
    (hmiss : requiredCols.filter (fun c => c ∉ f.cols) = [])
    (hclean : importClean f ≠ [])
    (hidx : s.fs.read classesPath = some (.classIndex irows))
    (hl1 : stuPath (importBase cname) ∉ s.fs.locked)
    (hl2 : classesPath ∉ s.fs.locked)
    (hl3 : staPath (importBase cname) ∉ s.fs.locked)
    (hd1 : ¬ classesPath = stuPath (importBase cname))
    (hd2 : ¬ stuPath (importBase cname) = staPath (importBase cname)) :
    (import_students s f).2 = .ok () ∧
    (import_students s f).1.fs.read (stuPath (sanitizeBase cname)) =
      some (.roster (cleanStudents f)) ∧
    (import_students s f).1.fs.read (staPath (sanitizeBase cname)) =
      some (.stats ((cleanStudents f).map
        (fun x => (⟨x.sid, x.sname, 0, 0, 0⟩ : StatRow)))) := by
  have hbase : sanitizeBase cname = importBase cname := by
    unfold sanitizeBase importBase
    rw [hsan]
  have hCE : (importClean f).isEmpty = false := by
    rcases hx : importClean f with _ | ⟨a, l⟩
    · exact absurd hx hclean
    · rfl
  have hw1 := FS.write_eq s.fs (stuPath (importBase cname))
    (.roster ((importClean f).map (fun p => (⟨p.1, p.2⟩ : Student)))) hl1
  set fs1 : FS := ⟨assocSet s.fs.files (stuPath (importBase cname))
    (.roster ((importClean f).map (fun p => (⟨p.1, p.2⟩ : Student)))),
    s.fs.locked⟩ with hfs1
  have hidx1 : fs1.read classesPath = some (.classIndex irows) := by
    rw [FS.read_write_other hw1 hd1]
    exact hidx
  have hl2' : classesPath ∉ fs1.locked := hl2
  have hw2 := FS.write_eq fs1 classesPath
    (.classIndex (irows.map (fun r =>
      if r.cname == cname then { r with studentsFile := stuPath (importBase cname) }
      else r))) hl2'
  set fs2 : FS := ⟨assocSet fs1.files classesPath
    (.classIndex (irows.map (fun r =>
      if r.cname == cname then { r with studentsFile := stuPath (importBase cname) }
      else r))), fs1.locked⟩ with hfs2
  have hstuR : fs2.read (stuPath (importBase cname)) =
      some (.roster ((importClean f).map (fun p => (⟨p.1, p.2⟩ : Student)))) := by
    rw [FS.read_write_other hw2 (Ne.symm hd1)]
    exact FS.read_write_self hw1
  have hl3' : staPath (importBase cname) ∉ fs2.locked := hl3
  have hw3 := FS.write_eq fs2 (staPath (importBase cname))
    (.stats (((importClean f).map (fun p => (⟨p.1, p.2⟩ : Student))).map
      (fun x => (⟨x.sid, x.sname, 0, 0, 0⟩ : StatRow)))) hl3'
  set fs3 : FS := ⟨assocSet fs2.files (staPath (importBase cname))
    (.stats (((importClean f).map (fun p => (⟨p.1, p.2⟩ : Student))).map
      (fun x => (⟨x.sid, x.sname, 0, 0, 0⟩ : StatRow)))), fs2.locked⟩ with hfs3
  have heqI : import_students s f = ({ s with fs := fs3 }, .ok ()) := by
    unfold import_students importTail
    simp only [hmiss]
    rw [if_neg (fun hcon : ([] : List String) ≠ [] => hcon rfl)]
    simp only [hCE, hcc, Bool.false_eq_true, if_false]
    rw [if_neg hne0]
    simp only [hw1, hidx1, hw2, hstuR, hw3]
  rw [heqI]
  refine ⟨rfl, ?_, ?_⟩
  · rw [hbase]
    show fs3.read (stuPath (importBase cname)) = _
    rw [FS.read_write_other hw3 hd2]
    exact hstuR
  · rw [hbase]
    show fs3.read (staPath (importBase cname)) = _
    exact FS.read_write_self hw3

/-- Witness for C6 (amended): importing a four-row source (one exact
duplicate, one blank id, one extra ignored column) into class `ab` yields a
two-row roster and a two-row all-zero statistics table. -/
theorem c6_witness :
    requiredCols.filter (fun c => c ∉ exF6w.cols) = [] ∧
    importClean exF6w = [("1", "A"), ("2", "B")] ∧
    ((import_students exS exF6w).2 = .ok () ∧
      (import_students exS exF6w).1.fs.read (stuPath (sanitizeBase "ab")) =
        some (.roster (cleanStudents exF6w)) ∧
      (import_students exS exF6w).1.fs.read (staPath (sanitizeBase "ab")) =
        some (.stats ((cleanStudents exF6w).map
          (fun x => (⟨x.sid, x.sname, 0, 0, 0⟩ : StatRow))))) := by
  refine ⟨by decide, by decide, ?_⟩
  exact c6_import_replaces_tables exS "ab" exF6w
    [⟨"ab", stuPath "ab", attPath "ab", staPath "ab"⟩]
    rfl (by decide) (by decide) (by decide) (by decide) rfl
    (by decide) (by decide) (by decide) (by decide) (by decide)


/-- Core of `delete_class` on a selected class whose three files exist:
result, archived contents, persisted index (trimmed names, matching rows
dropped) and cleared roster snapshot, under no-lock and path-distinctness
side conditions. -/
theorem delete_selected_eq (s : AppState) (cname dateStr timeStr : String)
    (cf : ClassFiles) (rows : List ClassRow) (d1 d2 d3 : FileData)
    (hcc : s.current_class = some cname) (hne0 : ¬ cname = "")
    (hcf : s.current_files = some cf)
    (hlk : s.fs.locked = [])
    (hr1 : s.fs.read cf.studentsFile = some d1)
    (hr2 : s.fs.read cf.attendanceFile = some d2)
    (hr3 : s.fs.read cf.statsFile = some d3)
    (hidx : s.fs.read classesPath = some (.classIndex rows))
    (hp1 : ¬ cf.studentsFile = "") (hp2 : ¬ cf.attendanceFile = "")
    (hp3 : ¬ cf.statsFile = "")
    (h21 : cf.attendanceFile ≠ cf.studentsFile)
    (h2q1 : cf.attendanceFile ≠ backupDst dateStr timeStr cf.studentsFile)
    (h31 : cf.statsFile ≠ cf.studentsFile)
    (h3q1 : cf.statsFile ≠ backupDst dateStr timeStr cf.studentsFile)
    (h32 : cf.statsFile ≠ cf.attendanceFile)
    (h3q2 : cf.statsFile ≠ backupDst dateStr timeStr cf.attendanceFile)
    (hcp1 : classesPath ≠ cf.studentsFile)
    (hcpq1 : classesPath ≠ backupDst dateStr timeStr cf.studentsFile)
    (hcp2 : classesPath ≠ cf.attendanceFile)
    (hcpq2 : classesPath ≠ backupDst dateStr timeStr cf.attendanceFile)
    (hcp3 : classesPath ≠ cf.statsFile)
    (hcpq3 : classesPath ≠ backupDst dateStr timeStr cf.statsFile)
    (hq12 : backupDst dateStr timeStr cf.studentsFile ≠
      backupDst dateStr timeStr cf.attendanceFile)
    (hq13 : backupDst dateStr timeStr cf.studentsFile ≠
      backupDst dateStr timeStr cf.statsFile)
    (hq23 : backupDst dateStr timeStr cf.attendanceFile ≠
      backupDst dateStr timeStr cf.statsFile) :
    (delete_class s dateStr timeStr true).2 = .ok () ∧
    (delete_class s dateStr timeStr true).1.fs.read
      (backupDst dateStr timeStr cf.studentsFile) = some d1 ∧
    (delete_class s dateStr timeStr true).1.fs.read
      (backupDst dateStr timeStr cf.attendanceFile) = some d2 ∧
    (delete_class s dateStr timeStr true).1.fs.read
      (backupDst dateStr timeStr cf.statsFile) = some d3 ∧
    load_classes (delete_class s dateStr timeStr true).1.fs =
      (rows.map (fun r => { r with cname := strTrim r.cname })).filter
        (fun r => r.cname != strTrim cname) ∧
    (∀ r ∈ load_classes (delete_class s dateStr timeStr true).1.fs,
      r.cname ≠ strTrim cname) ∧
    (delete_class s dateStr timeStr true).1.students = [] := by
  have hnolock : ∀ p : String, p ∉ s.fs.locked := by
    intro p
    rw [hlk]
    exact List.not_mem_nil p
  -- first backup: students file
  have hren1 : s.fs.rename cf.studentsFile
      (backupDst dateStr timeStr cf.studentsFile) =
      some ⟨assocSet (s.fs.files.filter (fun q => q.1 != cf.studentsFile))
        (backupDst dateStr timeStr cf.studentsFile) d1, s.fs.locked⟩ :=
    FS.rename_eq s.fs _ _ d1 hr1 (hnolock _) (hnolock _)
  set fs1 : FS := ⟨assocSet (s.fs.files.filter (fun q => q.1 != cf.studentsFile))
    (backupDst dateStr timeStr cf.studentsFile) d1, s.fs.locked⟩ with hfs1
  have hb1 : backupOne s.fs dateStr timeStr cf.studentsFile = some fs1 := by
    unfold backupOne
    rw [if_pos ⟨by simp [hp1], FS.pathExists_of_read hr1⟩]
    exact hren1
  have hl1 : fs1.locked = s.fs.locked := FS.locked_rename hren1
  have hnolock1 : ∀ p : String, p ∉ fs1.locked := by
    intro p
    rw [hl1]
    exact hnolock p
  -- second backup: attendance file
  have hr2x : fs1.read cf.attendanceFile = some d2 := by
    rw [FS.read_rename_other hren1 h21 h2q1]
    exact hr2
  have hren2 : fs1.rename cf.attendanceFile
      (backupDst dateStr timeStr cf.attendanceFile) =
      some ⟨assocSet (fs1.files.filter (fun q => q.1 != cf.attendanceFile))
        (backupDst dateStr timeStr cf.attendanceFile) d2, fs1.locked⟩ :=
    FS.rename_eq fs1 _ _ d2 hr2x (hnolock1 _) (hnolock1 _)
  set fs2 : FS := ⟨assocSet (fs1.files.filter (fun q => q.1 != cf.attendanceFile))
    (backupDst dateStr timeStr cf.attendanceFile) d2, fs1.locked⟩ with hfs2
  have hb2 : backupOne fs1 dateStr timeStr cf.attendanceFile = some fs2 := by
    unfold backupOne
    rw [if_pos ⟨by simp [hp2], FS.pathExists_of_read hr2x⟩]
    exact hren2
  have hl2 : fs2.locked = s.fs.locked := by
    rw [FS.locked_rename hren2, hl1]
  have hnolock2 : ∀ p : String, p ∉ fs2.locked := by
    intro p
    rw [hl2]
    exact hnolock p
  -- third backup: stats file
  have hr3x : fs2.read cf.statsFile = some d3 := by
    rw [FS.read_rename_other hren2 h32 h3q2, FS.read_rename_other hren1 h31 h3q1]
    exact hr3
  have hren3 : fs2.rename cf.statsFile
      (backupDst dateStr timeStr cf.statsFile) =
      some ⟨assocSet (fs2.files.filter (fun q => q.1 != cf.statsFile))
        (backupDst dateStr timeStr cf.statsFile) d3, fs2.locked⟩ :=
    FS.rename_eq fs2 _ _ d3 hr3x (hnolock2 _) (hnolock2 _)
  set fs3 : FS := ⟨assocSet (fs2.files.filter (fun q => q.1 != cf.statsFile))
    (backupDst dateStr timeStr cf.statsFile) d3, fs2.locked⟩ with hfs3
  have hb3 : backupOne fs2 dateStr timeStr cf.statsFile = some fs3 := by
    unfold backupOne
    rw [if_pos ⟨by simp [hp3], FS.pathExists_of_read hr3x⟩]
    exact hren3
  have hl3 : fs3.locked = s.fs.locked := by
    rw [FS.locked_rename hren3, hl2]
  -- the index after the three renames
  have hidx3 : fs3.read classesPath = some (.classIndex rows) := by
    rw [FS.read_rename_other hren3 hcp3 hcpq3,
      FS.read_rename_other hren2 hcp2 hcpq2,
      FS.read_rename_other hren1 hcp1 hcpq1]
    exact hidx
  have hpe3 : fs3.pathExists classesPath = true := FS.pathExists_of_read hidx3
  have hw4 := FS.write_eq fs3 classesPath
    (.classIndex ((rows.map (fun r => { r with cname := strTrim r.cname })).filter
      (fun r => r.cname != strTrim cname)))
    (by rw [hl3]; exact hnolock _)
  set fs4 : FS := ⟨assocSet fs3.files classesPath
    (.classIndex ((rows.map (fun r => { r with cname := strTrim r.cname })).filter
      (fun r => r.cname != strTrim cname))),
    fs3.locked⟩ with hfs4
  have heqD : delete_class s dateStr timeStr true =
      ({ s with
          fs := fs4, current_class := none, current_files := none,
          students := [] }, .ok ()) := by
    unfold delete_class
    simp only [hcc]
    rw [if_neg hne0]
    simp only [hcf, hb1, hb2, hb3, hpe3, hidx3, hw4, if_true]
  rw [heqD]
  have hbq1 : fs4.read (backupDst dateStr timeStr cf.studentsFile) = some d1 := by
    rw [FS.read_write_other hw4 (Ne.symm hcpq1),
      FS.read_rename_other hren3 (Ne.symm h3q1) hq13,
      FS.read_rename_other hren2 (Ne.symm h2q1) hq12]
    exact FS.read_rename_self hr1 hren1
  have hbq2 : fs4.read (backupDst dateStr timeStr cf.attendanceFile) = some d2 := by
    rw [FS.read_write_other hw4 (Ne.symm hcpq2),
      FS.read_rename_other hren3 (Ne.symm h3q2) hq23]
    exact FS.read_rename_self hr2x hren2
  have hbq3 : fs4.read (backupDst dateStr timeStr cf.statsFile) = some d3 := by
    rw [FS.read_write_other hw4 (Ne.symm hcpq3)]
    exact FS.read_rename_self hr3x hren3
  have hload : load_classes fs4 =
      (rows.map (fun r => { r with cname := strTrim r.cname })).filter
        (fun r => r.cname != strTrim cname) := by
    unfold load_classes
    rw [FS.read_write_self hw4]
  refine ⟨rfl, hbq1, hbq2, hbq3, hload, ?_, rfl⟩
  intro r hm
  rw [hload] at hm
  have := (List.mem_filter.mp hm).2
  simpa [bne_iff_ne] using this

/-- Core of `delete_class` on a name with no trimmed match in the index:
the call succeeds, and the rewritten index holds the same rows with their
names whitespace-trimmed; the in-memory session fields are untouched. -/
theorem delete_nomatch_eq (s : AppState) (cname dateStr timeStr : String)
    (rows : List ClassRow)
    (hcc : s.current_class = some cname) (hne0 : ¬ cname = "")
    (hcf : s.current_files = none)
    (hidx : s.fs.read classesPath = some (.classIndex rows))
    (hlk : classesPath ∉ s.fs.locked)
    (hall : ∀ r ∈ rows, strTrim r.cname ≠ strTrim cname) :
    (delete_class s dateStr timeStr false).2 = .ok () ∧
    load_classes (delete_class s dateStr timeStr false).1.fs =
      rows.map (fun r => { r with cname := strTrim r.cname }) ∧
    (delete_class s dateStr timeStr false).1.students = s.students ∧
    (delete_class s dateStr timeStr false).1.current_index = s.current_index := by
  have hskip : ∀ fs : FS, backupOne fs dateStr timeStr "" = some fs := by
    intro fs
    unfold backupOne
    rw [if_neg (fun hcon => by simp at hcon)]
  have hfilt : (rows.map (fun r => { r with cname := strTrim r.cname })).filter
      (fun r => r.cname != strTrim cname) =
      rows.map (fun r => { r with cname := strTrim r.cname }) :=
    List.filter_eq_self.mpr (fun a ha => by
      obtain ⟨r, hr, rfl⟩ := List.mem_map.mp ha
      simp only [bne_iff_ne]
      exact hall r hr)
  have hpe : s.fs.pathExists classesPath = true := FS.pathExists_of_read hidx
  have hw := FS.write_eq s.fs classesPath
    (.classIndex (rows.map (fun r => { r with cname := strTrim r.cname }))) hlk
  set fsB : FS := ⟨assocSet s.fs.files classesPath
    (.classIndex (rows.map (fun r => { r with cname := strTrim r.cname }))),
    s.fs.locked⟩ with hfsB
  have heqD : delete_class s dateStr timeStr false =
      ({ s with fs := fsB }, .ok ()) := by
    unfold delete_class
    simp only [hcc]
    rw [if_neg hne0]
    simp only [hcf, hskip, hpe, hidx, hfilt, hw, if_true,
      Bool.false_eq_true, if_false]
  rw [heqD]
  refine ⟨rfl, ?_, rfl, rfl⟩
  unfold load_classes
  rw [FS.read_write_self hw]

/-- Claim C7 (amended): deleting the selected class archives each of its
three existing table files to the dated, timestamp-prefixed backup path
with contents exactly equal to the pre-deletion contents, and rewrites the
index with its stored names whitespace-trimmed and every trimmed match for
the deleted name dropped, so no surviving row matches; but deleting a name
with no trimmed match does NOT fail — there is no not-found check — it
completes with success and leaves the same index rows, their names
trimmed. -/
theorem c7_delete_archives :
    (∀ (s : AppState) (cname dateStr timeStr : String) (cf : ClassFiles)
       (rows : List ClassRow) (d1 d2 d3 : FileData),
      s.current_class = some cname → ¬ cname = "" →
      s.current_files = some cf →
      s.fs.locked = [] →
      s.fs.read cf.studentsFile = some d1 →
      s.fs.read cf.attendanceFile = some d2 →
      s.fs.read cf.statsFile = some d3 →
      s.fs.read classesPath = some (.classIndex rows) →
      ¬ cf.studentsFile = "" → ¬ cf.attendanceFile = "" → ¬ cf.statsFile = "" →
      cf.attendanceFile ≠ cf.studentsFile →
      cf.attendanceFile ≠ backupDst dateStr timeStr cf.studentsFile →
      cf.statsFile ≠ cf.studentsFile →
      cf.statsFile ≠ backupDst dateStr timeStr cf.studentsFile →
      cf.statsFile ≠ cf.attendanceFile →
      cf.statsFile ≠ backupDst dateStr timeStr cf.attendanceFile →
      classesPath ≠ cf.studentsFile →
      classesPath ≠ backupDst dateStr timeStr cf.studentsFile →
      classesPath ≠ cf.attendanceFile →
      classesPath ≠ backupDst dateStr timeStr cf.attendanceFile →
      classesPath ≠ cf.statsFile →
      classesPath ≠ backupDst dateStr timeStr cf.statsFile →
      backupDst dateStr timeStr cf.studentsFile ≠
        backupDst dateStr timeStr cf.attendanceFile →
      backupDst dateStr timeStr cf.studentsFile ≠
        backupDst dateStr timeStr cf.statsFile →
      backupDst dateStr timeStr cf.attendanceFile ≠
        backupDst dateStr timeStr cf.statsFile →
      (delete_class s dateStr timeStr true).2 = .ok () ∧
      (delete_class s dateStr timeStr true).1.fs.read
        (backupDst dateStr timeStr cf.studentsFile) = some d1 ∧
      (delete_class s dateStr timeStr true).1.fs.read
        (backupDst dateStr timeStr cf.attendanceFile) = some d2 ∧
      (delete_class s dateStr timeStr true).1.fs.read
        (backupDst dateStr timeStr cf.statsFile) = some d3 ∧
      load_classes (delete_class s dateStr timeStr true).1.fs =
        (rows.map (fun r => { r with cname := strTrim r.cname })).filter
          (fun r => r.cname != strTrim cname) ∧
      (∀ r ∈ load_classes (delete_class s dateStr timeStr true).1.fs,
        r.cname ≠ strTrim cname) ∧
      (delete_class s dateStr timeStr true).1.students = []) ∧
    (∀ (s : AppState) (cname dateStr timeStr : String) (rows : List ClassRow),
      s.current_class = some cname → ¬ cname = "" →
      s.current_files = none →
      s.fs.read classesPath = some (.classIndex rows) →
      classesPath ∉ s.fs.locked →
      (∀ r ∈ rows, strTrim r.cname ≠ strTrim cname) →
      (delete_class s dateStr timeStr false).2 = .ok () ∧
      load_classes (delete_class s dateStr timeStr false).1.fs =
        rows.map (fun r => { r with cname := strTrim r.cname }) ∧
      (delete_class s dateStr timeStr false).1.students = s.students ∧
      (delete_class s dateStr timeStr false).1.current_index =
        s.current_index) := by
  constructor
  · intro s cname dateStr timeStr cf rows d1 d2 d3 hcc hne0 hcf hlk hr1 hr2 hr3
      hidx hp1 hp2 hp3 h21 h2q1 h31 h3q1 h32 h3q2 hcp1 hcpq1 hcp2 hcpq2 hcp3
      hcpq3 hq12 hq13 hq23
    exact delete_selected_eq s cname dateStr timeStr cf rows d1 d2 d3 hcc hne0
      hcf hlk hr1 hr2 hr3 hidx hp1 hp2 hp3 h21 h2q1 h31 h3q1 h32 h3q2 hcp1
      hcpq1 hcp2 hcpq2 hcp3 hcpq3 hq12 hq13 hq23
  · intro s cname dateStr timeStr rows hcc hne0 hcf hidx hlk hall
    exact delete_nomatch_eq s cname dateStr timeStr rows hcc hne0 hcf hidx
      hlk hall

/-- Witness for C7: part one applied to the existing class `ab` (files
archived intact, trimmed index cleared of the row, roster snapshot
cleared), part two to the absent name `X` (silent success, same rows with
trimmed names). -/
theorem c7_witness :
    (exS.current_class = some "ab" ∧ exS.current_files = some exCF ∧
      ((delete_class exS "20250101" "120000" true).2 = .ok () ∧
        (delete_class exS "20250101" "120000" true).1.fs.read
          (backupDst "20250101" "120000" exCF.studentsFile) =
          some (.roster exRoster) ∧
        (delete_class exS "20250101" "120000" true).1.fs.read
          (backupDst "20250101" "120000" exCF.attendanceFile) =
          some (.attendance []) ∧
        (delete_class exS "20250101" "120000" true).1.fs.read
          (backupDst "20250101" "120000" exCF.statsFile) =
          some (.stats exStats0) ∧
        load_classes (delete_class exS "20250101" "120000" true).1.fs =
          (([⟨"ab", stuPath "ab", attPath "ab", staPath "ab"⟩] : List ClassRow).map
            (fun r => { r with cname := strTrim r.cname })).filter
            (fun r => r.cname != strTrim "ab") ∧
        (∀ r ∈ load_classes (delete_class exS "20250101" "120000" true).1.fs,
          r.cname ≠ strTrim "ab") ∧
        (delete_class exS "20250101" "120000" true).1.students = [])) ∧
    (exS7.current_class = some "X" ∧ exS7.current_files = none ∧
      ((delete_class exS7 "d" "t" false).2 = .ok () ∧
        load_classes (delete_class exS7 "d" "t" false).1.fs =
          ([⟨"Y", "p1", "p2", "p3"⟩] : List ClassRow).map
            (fun r => { r with cname := strTrim r.cname }) ∧
        (delete_class exS7 "d" "t" false).1.students = exS7.students ∧
        (delete_class exS7 "d" "t" false).1.current_index =
          exS7.current_index)) := by
  constructor
  · refine ⟨rfl, rfl, ?_⟩
    exact c7_delete_archives.1 exS "ab" "20250101" "120000" exCF
      [⟨"ab", stuPath "ab", attPath "ab", staPath "ab"⟩]
      (.roster exRoster) (.attendance []) (.stats exStats0)
      rfl (by decide) rfl rfl rfl rfl rfl rfl (by decide) (by decide) (by decide)
      (by decide) (by decide) (by decide) (by decide) (by decide) (by decide)
      (by decide) (by decide) (by decide) (by decide) (by decide) (by decide)
      (by decide) (by decide) (by decide)
  · refine ⟨rfl, rfl, ?_⟩
    exact c7_delete_archives.2 exS7 "X" "d" "t" [⟨"Y", "p1", "p2", "p3"⟩]
      rfl (by decide) rfl rfl (by decide) (by decide)



/-! ### No engine operation other than the append touches an existing log -/

theorem append_tail_ne (t1 t2 : List Char) (i : Nat)
    (h1 : i < t1.length) (h2 : i < t2.length) (hne : ¬ t1[i]? = t2[i]?) :
    ∀ x y : List Char, ¬ t1 ++ x = t2 ++ y := by
  intro x y h
  apply hne
  have hg : (t1 ++ x)[i]? = (t2 ++ y)[i]? := by rw [h]
  rw [List.getElem?_append_left h1, List.getElem?_append_left h2] at hg
  exact hg

theorem attPath_ne_stuPath (b b' : String) : ¬ attPath b = stuPath b' := by
  intro h
  have hd : "_attendance.xlsx".data.reverse ++ ("data/".data ++ b.data).reverse =
      "_students.xlsx".data.reverse ++ ("data/".data ++ b'.data).reverse := by
    have hx : (attPath b).data.reverse =
        "_attendance.xlsx".data.reverse ++ ("data/".data ++ b.data).reverse := by
      show ((("data/".data ++ b.data) ++ "_attendance.xlsx".data)).reverse = _
      rw [List.reverse_append]
    have hy : (stuPath b').data.reverse =
        "_students.xlsx".data.reverse ++ ("data/".data ++ b'.data).reverse := by
      show ((("data/".data ++ b'.data) ++ "_students.xlsx".data)).reverse = _
      rw [List.reverse_append]
    rw [← hx, ← hy, h]
  exact append_tail_ne _ _ 5 (by decide) (by decide) (by decide) _ _ hd

theorem attPath_ne_staPath (b b' : String) : ¬ attPath b = staPath b' := by
  intro h
  have hd : "_attendance.xlsx".data.reverse ++ ("data/".data ++ b.data).reverse =
      "_stats.xlsx".data.reverse ++ ("data/".data ++ b'.data).reverse := by
    have hx : (attPath b).data.reverse =
        "_attendance.xlsx".data.reverse ++ ("data/".data ++ b.data).reverse := by
      show ((("data/".data ++ b.data) ++ "_attendance.xlsx".data)).reverse = _
      rw [List.reverse_append]
    have hy : (staPath b').data.reverse =
        "_stats.xlsx".data.reverse ++ ("data/".data ++ b'.data).reverse := by
      show ((("data/".data ++ b'.data) ++ "_stats.xlsx".data)).reverse = _
      rw [List.reverse_append]
    rw [← hx, ← hy, h]
  exact append_tail_ne _ _ 5 (by decide) (by decide) (by decide) _ _ hd

theorem attPath_ne_classesPath (b : String) : ¬ attPath b = classesPath := by
  intro h
  have hd : "_attendance.xlsx".data.reverse ++ ("data/".data ++ b.data).reverse =
      "classes.xlsx".data.reverse ++ "data/".data.reverse := by
    have hx : (attPath b).data.reverse =
        "_attendance.xlsx".data.reverse ++ ("data/".data ++ b.data).reverse := by
      show ((("data/".data ++ b.data) ++ "_attendance.xlsx".data)).reverse = _
      rw [List.reverse_append]
    have hy : classesPath.data.reverse =
        "classes.xlsx".data.reverse ++ "data/".data.reverse := by decide
    rw [← hx, ← hy, h]
  exact append_tail_ne _ _ 5 (by decide) (by decide) (by decide) _ _ hd

theorem ensureFile_preserves {fs fs' : FS} {q : String} {d d0 : FileData}
    {p : String} (h : ensureFile fs q d = some fs') (hp : fs.read p = some d0) :
    fs'.read p = some d0 := by
  unfold ensureFile at h
  by_cases he : fs.pathExists q = true
  · rw [if_pos he] at h
    cases h
    exact hp
  · rw [if_neg he] at h
    have hq : ¬ p = q := by
      intro heq
      subst heq
      exact he (FS.pathExists_of_read hp)
    rw [FS.read_write_other h hq]
    exact hp

/-- `save_class` never touches an existing file of attendance shape: the
headers-only creation skips existing paths and the index write happens only
at the index file. -/
theorem save_class_keeps (fs : FS) (name p : String) (l : List AttendanceRecord)
    (hp : fs.read p = some (.attendance l)) :
    ((save_class fs name).1).read p = some (.attendance l) := by
  unfold save_class
  rcases h1 : ensureFile fs (stuPath (sanitizeBase name)) (.roster []) with _ | fsA
  · simp only [h1]
    exact hp
  simp only [h1]
  have hpA := ensureFile_preserves h1 hp
  rcases h2 : ensureFile fsA (attPath (sanitizeBase name)) (.attendance []) with _ | fsB
  · simp only [h2]
    exact hpA
  simp only [h2]
  have hpB := ensureFile_preserves h2 hpA
  rcases h3 : ensureFile fsB (staPath (sanitizeBase name)) (.stats []) with _ | fsC
  · simp only [h3]
    exact hpB
  simp only [h3]
  have hpC := ensureFile_preserves h3 hpB
  rcases h4 : fsC.read classesPath with _ | fd
  · simp only [h4]
    exact hpC
  cases fd with
  | roster rows =>
    simp only [h4]
    exact hpC
  | attendance l2 =>
    simp only [h4]
    exact hpC
  | stats rows =>
    simp only [h4]
    exact hpC
  | classIndex rows =>
    simp only [h4]
    by_cases hd : name ∈ rows.map (fun r => r.cname)
    · rw [if_pos hd]
      exact hpC
    · rw [if_neg hd]
      have hqc : ¬ p = classesPath := by
        intro he
        rw [he] at hpC
        rw [hpC] at h4
        simp at h4
      rcases h5 : fsC.write classesPath
          (.classIndex (rows ++ [⟨name, stuPath (sanitizeBase name),
            attPath (sanitizeBase name), staPath (sanitizeBase name)⟩])) with _ | fsD
      · simp only [h5]
        exact hpC
      · simp only [h5]
        show fsD.read p = _
        rw [FS.read_write_other h5 hqc]
        exact hpC

/-- The stray stats-regeneration tail of `import_students` writes only at
`staPath base`, so it preserves every other path's contents. -/
theorem importTail_keeps (s : AppState) (base : String) (r : Except Err Unit)
    (p : String) (d : FileData) (hp : s.fs.read p = some d)
    (h3 : ¬ p = staPath base) :
    ((importTail s base r).1).fs.read p = some d := by
  unfold importTail
  rcases hr : s.fs.read (stuPath base) with _ | fd
  · simp only [hr]
    exact hp
  cases fd with
  | roster rows =>
    simp only [hr]
    rcases hw : s.fs.write (staPath base)
        (.stats (rows.map (fun st => (⟨st.sid, st.sname, 0, 0, 0⟩ : StatRow)))) with _ | fs1
    · simp only [hw]
      exact hp
    · simp only [hw]
      show fs1.read p = _
      rw [FS.read_write_other hw h3]
      exact hp
  | attendance l2 =>
    simp only [hr]
    exact hp
  | stats rows =>
    simp only [hr]
    exact hp
  | classIndex rows =>
    simp only [hr]
    exact hp

/-- `import_students` writes only at `stuPath base`, `classesPath` and
`staPath base`; by the fixed suffixes of the path formats none of these can
be an attendance file's path, so every attendance file survives an import
unchanged. -/
theorem import_students_keeps (s : AppState) (f : ImportFile) (b : String)
    (l : List AttendanceRecord)
    (hp : s.fs.read (attPath b) = some (.attendance l)) :
    ((import_students s f).1).fs.read (attPath b) = some (.attendance l) := by
  unfold import_students
  by_cases hm : requiredCols.filter (fun c => c ∉ f.cols) ≠ []
  · rw [if_pos hm]
    exact hp
  rw [if_neg hm]
  by_cases hie : (importClean f).isEmpty = true
  · rw [if_pos hie]
    exact hp
  rw [if_neg hie]
  rcases hcc : s.current_class with _ | cname
  · simp only [hcc]
    exact hp
  simp only [hcc]
  by_cases hce : cname = ""
  · rw [if_pos hce]
    exact hp
  rw [if_neg hce]
  rcases hw1 : s.fs.write (stuPath (importBase cname))
      (.roster ((importClean f).map (fun q => (⟨q.1, q.2⟩ : Student)))) with _ | fs1
  · simp only [hw1]
    exact importTail_keeps s (importBase cname) _ _ _ hp
      (attPath_ne_staPath b (importBase cname))
  simp only [hw1]
  have hp1 : fs1.read (attPath b) = some (.attendance l) := by
    rw [FS.read_write_other hw1 (attPath_ne_stuPath b (importBase cname))]
    exact hp
  rcases hr2 : fs1.read classesPath with _ | fd
  · simp only [hr2]
    exact importTail_keeps { s with fs := fs1, current_class := some cname }
      (importBase cname) _ _ _ hp1 (attPath_ne_staPath b (importBase cname))
  cases fd with
  | roster rows =>
    simp only [hr2]
    exact importTail_keeps { s with fs := fs1, current_class := some cname }
      (importBase cname) _ _ _ hp1 (attPath_ne_staPath b (importBase cname))
  | attendance l2 =>
    simp only [hr2]
    exact importTail_keeps { s with fs := fs1, current_class := some cname }
      (importBase cname) _ _ _ hp1 (attPath_ne_staPath b (importBase cname))
  | stats rows =>
    simp only [hr2]
    exact importTail_keeps { s with fs := fs1, current_class := some cname }
      (importBase cname) _ _ _ hp1 (attPath_ne_staPath b (importBase cname))
  | classIndex rows =>
    simp only [hr2]
    rcases hw2 : fs1.write classesPath
        (.classIndex (rows.map (fun r =>
          if r.cname == cname then
            { r with studentsFile := stuPath (importBase cname) }
          else r))) with _ | fs2
    · simp only [hw2]
      exact importTail_keeps { s with fs := fs1, current_class := some cname }
        (importBase cname) _ _ _ hp1 (attPath_ne_staPath b (importBase cname))
    · simp only [hw2]
      have hp2 : fs2.read (attPath b) = some (.attendance l) := by
        rw [FS.read_write_other hw2 (attPath_ne_classesPath b)]
        exact hp1
      exact importTail_keeps { s with fs := fs2, current_class := some cname }
        (importBase cname) _ _ _ hp2 (attPath_ne_staPath b (importBase cname))

theorem backupOne_preserves {fs fs' : FS} {dateStr timeStr src p : String}
    {d : FileData}
    (h : backupOne fs dateStr timeStr src = some fs') (hp : fs.read p = some d)
    (hps : ¬ p = src) (hpd : ¬ p = backupDst dateStr timeStr src) :
    fs'.read p = some d := by
  unfold backupOne at h
  by_cases hc : (src != "") = true ∧ fs.pathExists src = true
  · rw [if_pos hc] at h
    rw [FS.read_rename_other h hps hpd]
    exact hp
  · rw [if_neg hc] at h
    cases h
    exact hp

/-- `delete_class` renames only the three selected-class files and rewrites
only the index file, so an attendance file at any other path keeps its
contents through every outcome, partial failures included. -/
theorem delete_class_keeps (s : AppState) (dateStr timeStr : String) (rsel : Bool)
    (cf : ClassFiles) (p : String) (l : List AttendanceRecord)
    (hcf : s.current_files = some cf)
    (hp : s.fs.read p = some (.attendance l))
    (hn1 : ¬ p = cf.studentsFile) (hn2 : ¬ p = cf.attendanceFile)
    (hn3 : ¬ p = cf.statsFile)
    (hn4 : ¬ p = backupDst dateStr timeStr cf.studentsFile)
    (hn5 : ¬ p = backupDst dateStr timeStr cf.attendanceFile)
    (hn6 : ¬ p = backupDst dateStr timeStr cf.statsFile) :
    ((delete_class s dateStr timeStr rsel).1).fs.read p = some (.attendance l) := by
  unfold delete_class
  rcases hcc : s.current_class with _ | cname
  · simp only [hcc]
    exact hp
  simp only [hcc]
  by_cases hce : cname = ""
  · rw [if_pos hce]
    exact hp
  rw [if_neg hce]
  simp only [hcf]
  rcases hbA : backupOne s.fs dateStr timeStr cf.studentsFile with _ | fsA
  · simp only [hbA]
    exact hp
  simp only [hbA]
  have hpA : fsA.read p = some (.attendance l) := backupOne_preserves hbA hp hn1 hn4
  rcases hbB : backupOne fsA dateStr timeStr cf.attendanceFile with _ | fsB
  · simp only [hbB]
    exact hpA
  simp only [hbB]
  have hpB : fsB.read p = some (.attendance l) := backupOne_preserves hbB hpA hn2 hn5
  rcases hbC : backupOne fsB dateStr timeStr cf.statsFile with _ | fs1
  · simp only [hbC]
    exact hpB
  simp only [hbC]
  have hp1 : fs1.read p = some (.attendance l) := backupOne_preserves hbC hpB hn3 hn6
  by_cases hpe : fs1.pathExists classesPath = true
  · rcases hrd : fs1.read classesPath with _ | fd
    · simp only [hpe, if_true, hrd]
      exact hp1
    · cases fd with
      | roster rows =>
        simp only [hpe, if_true, hrd]
        exact hp1
      | attendance l2 =>
        simp only [hpe, if_true, hrd]
        exact hp1
      | stats rows =>
        simp only [hpe, if_true, hrd]
        exact hp1
      | classIndex rows =>
        have hqc : ¬ p = classesPath := by
          intro he
          rw [he] at hp1
          rw [hp1] at hrd
          simp at hrd
        rcases hw : fs1.write classesPath
            (.classIndex ((rows.map (fun r => { r with cname := strTrim r.cname })).filter
              (fun r => r.cname != strTrim cname))) with _ | fs2
        · simp only [hpe, if_true, hrd, hw]
          exact hp1
        · simp only [hpe, if_true, hrd, hw]
          cases rsel
          · show fs2.read p = _
            rw [FS.read_write_other hw hqc]
            exact hp1
          · show fs2.read p = _
            rw [FS.read_write_other hw hqc]
            exact hp1
  · have hpe' : fs1.pathExists classesPath = false := by
      revert hpe
      cases fs1.pathExists classesPath
      · intro _
        rfl
      · intro hcon
        exact absurd rfl hcon
    simp only [hpe', Bool.false_eq_true, if_false]
    cases rsel
    · exact hp1
    · exact hp1

/-- `start_attendance` only reads: the persisted store is untouched. -/
theorem start_attendance_fs (s : AppState) : (start_attendance s).1.fs = s.fs := by
  unfold start_attendance
  rcases hcc : s.current_class with _ | cname
  · simp only [hcc]
  simp only [hcc]
  by_cases hce : cname = ""
  · rw [if_pos hce]
  rw [if_neg hce]
  rcases hcf : s.current_files with _ | cf
  · simp only [hcf]
  simp only [hcf]
  rcases hr : s.fs.read cf.studentsFile with _ | fd
  · simp only [hr]
  cases fd with
  | roster rows =>
    simp only [hr]
    by_cases hemp : rows.isEmpty = true
    · rw [if_pos hemp]
    · rw [if_neg hemp]
  | attendance l2 => simp only [hr]
  | stats rows => simp only [hr]
  | classIndex rows => simp only [hr]

/-- Claim C8: `record_status` appends exactly one new row per success and
always leaves the previously written rows as a prefix of the log; and no
other engine operation mutates or deletes an existing log row:
`start_attendance` and `replay_name` write nothing, `save_class` and
`import_students` never touch an existing attendance file (imports write
only at the `_students`/`_stats`/index paths, which the fixed filename
suffixes keep disjoint from every attendance path), and `delete_class`
leaves every unrelated attendance file untouched while moving the selected
class's log whole — rows intact — to its backup path. -/
theorem c8_append_only :
    (∀ (s : AppState) (cf : ClassFiles) (st : Status) (d t : String)
        (l : List AttendanceRecord),
      s.current_files = some cf →
      s.fs.read cf.attendanceFile = some (.attendance l) →
      ∃ l', (record_status s st d t).1.fs.read cf.attendanceFile =
          some (.attendance l') ∧
        l'.take l.length = l ∧
        (∀ o, (record_status s st d t).2 = .ok o → ∃ rec1, l' = l ++ [rec1])) ∧
    (∀ s : AppState, (start_attendance s).1.fs = s.fs) ∧
    (∀ s : AppState, replay_name s = s) ∧
    (∀ (fs : FS) (name p : String) (l : List AttendanceRecord),
      fs.read p = some (.attendance l) →
      ((save_class fs name).1).read p = some (.attendance l)) ∧
    (∀ (s : AppState) (f : ImportFile) (b : String) (l : List AttendanceRecord),
      s.fs.read (attPath b) = some (.attendance l) →
      ((import_students s f).1).fs.read (attPath b) = some (.attendance l)) ∧
    (∀ (s : AppState) (dateStr timeStr : String) (rsel : Bool) (cf : ClassFiles)
        (p : String) (l : List AttendanceRecord),
      s.current_files = some cf →
      s.fs.read p = some (.attendance l) →
      ¬ p = cf.studentsFile → ¬ p = cf.attendanceFile → ¬ p = cf.statsFile →
      ¬ p = backupDst dateStr timeStr cf.studentsFile →
      ¬ p = backupDst dateStr timeStr cf.attendanceFile →
      ¬ p = backupDst dateStr timeStr cf.statsFile →
      ((delete_class s dateStr timeStr rsel).1).fs.read p =
        some (.attendance l)) ∧
    (∀ (s : AppState) (cname dateStr timeStr : String) (cf : ClassFiles)
        (rows : List ClassRow) (d1 : FileData) (l : List AttendanceRecord)
        (d3 : FileData),
      s.current_class = some cname → ¬ cname = "" →
      s.current_files = some cf →
      s.fs.locked = [] →
      s.fs.read cf.studentsFile = some d1 →
      s.fs.read cf.attendanceFile = some (.attendance l) →
      s.fs.read cf.statsFile = some d3 →
      s.fs.read classesPath = some (.classIndex rows) →
      ¬ cf.studentsFile = "" → ¬ cf.attendanceFile = "" → ¬ cf.statsFile = "" →
      cf.attendanceFile ≠ cf.studentsFile →
      cf.attendanceFile ≠ backupDst dateStr timeStr cf.studentsFile →
      cf.statsFile ≠ cf.studentsFile →
      cf.statsFile ≠ backupDst dateStr timeStr cf.studentsFile →
      cf.statsFile ≠ cf.attendanceFile →
      cf.statsFile ≠ backupDst dateStr timeStr cf.attendanceFile →
      classesPath ≠ cf.studentsFile →
      classesPath ≠ backupDst dateStr timeStr cf.studentsFile →
      classesPath ≠ cf.attendanceFile →
      classesPath ≠ backupDst dateStr timeStr cf.attendanceFile →
      classesPath ≠ cf.statsFile →
      classesPath ≠ backupDst dateStr timeStr cf.statsFile →
      backupDst dateStr timeStr cf.studentsFile ≠
        backupDst dateStr timeStr cf.attendanceFile →
      backupDst dateStr timeStr cf.studentsFile ≠
        backupDst dateStr timeStr cf.statsFile →
      backupDst dateStr timeStr cf.attendanceFile ≠
        backupDst dateStr timeStr cf.statsFile →
      (delete_class s dateStr timeStr true).1.fs.read
        (backupDst dateStr timeStr cf.attendanceFile) = some (.attendance l)) := by
  refine ⟨?_, start_attendance_fs, fun s => rfl, save_class_keeps,
    import_students_keeps, delete_class_keeps, ?_⟩
  · intro s cf st d t l h1 hatt
    exact record_status_append_aux s cf st d t l h1 hatt
  · intro s cname dateStr timeStr cf rows d1 l d3 hcc hne0 hcf hlk hr1 hr2 hr3
      hidx hq1 hq2 hq3 h21 h2q1 h31 h3q1 h32 h3q2 hcp1 hcpq1 hcp2 hcpq2 hcp3
      hcpq3 hq12 hq13 hq23
    exact (delete_selected_eq s cname dateStr timeStr cf rows d1 (.attendance l)
      d3 hcc hne0 hcf hlk hr1 hr2 hr3 hidx hq1 hq2 hq3 h21 h2q1 h31 h3q1 h32
      h3q2 hcp1 hcpq1 hcp2 hcpq2 hcp3 hcpq3 hq12 hq13 hq23).2.2.1

/-- Witness for C8: the record conjunct on the two-student session, the
creation/import/deletion conjuncts on stores holding an attendance log that
survives unchanged, and the archival conjunct on the class's own log. -/
theorem c8_witness :
    (exS.current_files = some exCF ∧
      exS.fs.read exCF.attendanceFile = some (.attendance []) ∧
      (∃ l', (record_status exS .present "d" "t").1.fs.read exCF.attendanceFile =
          some (.attendance l') ∧
        l'.take ([] : List AttendanceRecord).length = [] ∧
        (∀ o, (record_status exS .present "d" "t").2 = .ok o →
          ∃ rec1, l' = [] ++ [rec1]))) ∧
    (exFS.read (attPath "ab") = some (.attendance []) ∧
      ((save_class exFS "newclass").1).read (attPath "ab") =
        some (.attendance [])) ∧
    (exS8.fs.read (attPath "zz") =
        some (.attendance [⟨"9", "Z", .present, "d0", "t0"⟩]) ∧
      ((import_students exS8 exF6w).1).fs.read (attPath "zz") =
        some (.attendance [⟨"9", "Z", .present, "d0", "t0"⟩]) ∧
      ((delete_class exS8 "20250101" "120000" true).1).fs.read (attPath "zz") =
        some (.attendance [⟨"9", "Z", .present, "d0", "t0"⟩])) ∧
    ((delete_class exS "20250101" "120000" true).1.fs.read
      (backupDst "20250101" "120000" exCF.attendanceFile) =
      some (.attendance [])) := by
  refine ⟨⟨rfl, rfl, ?_⟩, ⟨rfl, ?_⟩, ⟨rfl, ?_, ?_⟩, ?_⟩
  · exact c8_append_only.1 exS exCF .present "d" "t" [] rfl rfl
  · exact c8_append_only.2.2.2.1 exFS "newclass" (attPath "ab") [] rfl
  · exact c8_append_only.2.2.2.2.1 exS8 exF6w "zz"
      [⟨"9", "Z", .present, "d0", "t0"⟩] rfl
  · exact c8_append_only.2.2.2.2.2.1 exS8 "20250101" "120000" true exCF
      (attPath "zz") [⟨"9", "Z", .present, "d0", "t0"⟩] rfl rfl
      (by decide) (by decide) (by decide) (by decide) (by decide) (by decide)
  · exact c8_append_only.2.2.2.2.2.2 exS "ab" "20250101" "120000" exCF
      [⟨"ab", stuPath "ab", attPath "ab", staPath "ab"⟩]
      (.roster exRoster) [] (.stats exStats0)
      rfl (by decide) rfl rfl rfl rfl rfl rfl (by decide) (by decide) (by decide)
      (by decide) (by decide) (by decide) (by decide) (by decide) (by decide)
      (by decide) (by decide) (by decide) (by decide) (by decide) (by decide)
      (by decide) (by decide) (by decide)

end TTS
